import Mathlib

/-!
Verification model of the FM4 backend's incremental synchronization engine
(broadcast scraper, live monitor, content-addressable image store), shallowly
embedded from the JavaScript sources:

* `src/database/database.js`  — store operations over the SQLite schema
* `src/database/schema.js`    — table shapes and UNIQUE constraints
* `src/services/broadcast-scraper.js` — `scrapeBroadcast`, `scrapeHistoricalBroadcasts`
* `src/services/live-monitor.js`      — `processLiveItems`, `checkLiveAndUpdate`
* `src/services/image-service.js`     — `processAndStoreImage`, `processBroadcastImages`
* `src/utils/broadcast-transformer.js` — `transformBroadcastItem` loopstream URL policy

Modelling conventions:
* Nullable JavaScript values are `Option Int` / `Option String`; JS truthiness
  (`0`, `""`, `null` are falsy) is modelled by `truthyI` / `truthyS`.
* Timestamps are `Int` milliseconds; the store clock `updated_at` is `Int`
  seconds (SQLite `strftime('%s','now')`), both supplied by the environment.
* Calendar days are modelled as integers on a linear day axis (one unit = one
  calendar day), so `formatBroadcastDay`, `setDate` arithmetic and
  `getDaysDifference` become exact integer operations.
* Network and disk I/O are oracles in an environment record; image bytes are
  an abstract `Int` content value, the SHA-256 content hash an abstract
  function of the environment (any function: only determinism is used).
* SQLite row collections are plain lists; `INSERT OR REPLACE` deletes the
  conflicting rows and appends, `INSERT OR IGNORE` appends only when no row
  hits the UNIQUE constraint, matching the declared constraints in schema.js.
-/

namespace FM4

/-- JS truthiness of a nullable number: `null`/`undefined` and `0` are falsy. -/
def truthyI : Option Int → Bool
  | none => false
  | some n => n != 0

/-- JS truthiness of a nullable string: `null`/`undefined` and `""` are falsy. -/
def truthyS : Option String → Bool
  | none => false
  | some s => s != ""

/-- JS `x || null` on a nullable number. -/
def normI (a : Option Int) : Option Int := if truthyI a then a else none

/-- JS `x || null` on a nullable string. -/
def normS (a : Option String) : Option String := if truthyS a then a else none

/-- JS `a || b` on nullable strings (used for `liveItem.programKey || liveItem.program`). -/
def orS (a b : Option String) : Option String := if truthyS a then a else b

/-- JS `a || b` on booleans with a boolean default (`liveItem.isOnDemand || false`). -/
def orB (a b : Bool) : Bool := a || b

/-- JS numeric coercion of a nullable number (`Number(null) = 0`),
as it happens in `item.start_time - broadcast.loop_stream_start`. -/
def jsNum (a : Option Int) : Int := a.getD 0

/-! ## Stored rows (schema.js) -/

/-- A row of the `broadcasts` table (`schema.js`, `UNIQUE(broadcast_day, program_key)`). -/
structure BRow where
  id : Int
  broadcast_day : Int
  program_key : String
  title : Option String
  state : Option String
  start_time : Option Int
  end_time : Option Int
  loop_stream_id : Option String
  loop_stream_start : Option Int
  loop_stream_end : Option Int
  duration : Option Int
  done : Bool
  updated_at : Int
  deriving DecidableEq, Repr

/-- A row of the `broadcast_items` table (`id INTEGER PRIMARY KEY` is `rowId`). -/
structure IRow where
  rowId : Nat
  broadcast_id : Int
  item_id : Int
  broadcast_day : Option Int
  program_key : Option String
  type : Option String
  title : Option String
  interpreter : Option String
  description : Option String
  state : Option String
  is_on_demand : Bool
  is_geo_protected : Bool
  is_completed : Bool
  duration : Option Int
  song_id : Option String
  is_ad_free : Bool
  start_time : Option Int
  start_iso : Option String
  end_time : Option Int
  end_iso : Option String
  start_offset : Option Int
  end_offset : Option Int
  deriving DecidableEq, Repr

/-- A row of the `images` table (`UNIQUE(hash, resolution_type)`);
`hash` is the abstract content hash of the stored bytes. -/
structure ImageRow where
  id : Nat
  hash : Int
  resolution_type : String
  file_path : String
  width : Option Int
  height : Option Int
  file_size : Option Int
  deriving DecidableEq, Repr

/-- A row of the `image_references` table
(`UNIQUE(entity_type, entity_id, image_id, resolution_type)`). -/
structure RefRow where
  entity_type : String
  entity_id : Int
  image_id : Nat
  resolution_type : String
  deriving DecidableEq, Repr

/-- The persistent store: the tables touched by the synchronization engine. -/
structure Db where
  broadcasts : List BRow
  items : List IRow
  nextItemRowId : Nat
  images : List ImageRow
  nextImageId : Nat
  image_refs : List RefRow
  program_keys : List (String × Option String)
  metadata : List (String × String)
  deriving DecidableEq, Repr

/-- The empty store (fresh database after `createTables`). -/
def Db.empty : Db :=
  { broadcasts := [], items := [], nextItemRowId := 1, images := [], nextImageId := 1,
    image_refs := [], program_keys := [], metadata := [] }

/-! ## Store operations (database.js) -/

/-- Model of `DatabaseService.getBroadcast`: `SELECT * FROM broadcasts WHERE broadcast_day = ? AND program_key = ?`. -/
def Db.getBroadcast (db : Db) (broadcastDay : Int) (programKey : String) : Option BRow :=
  db.broadcasts.find? (fun r => r.broadcast_day == broadcastDay && r.program_key == programKey)

/-- Model of `DatabaseService.getBroadcastById`. -/
def Db.getBroadcastById (db : Db) (id : Int) : Option BRow :=
  db.broadcasts.find? (fun r => r.id == id)

/-- The record handed to `DatabaseService.insertBroadcast`
(the named SQL parameters of the `INSERT OR REPLACE`). -/
structure BParam where
  id : Int
  broadcastDay : Int
  programKey : String
  title : Option String
  state : Option String
  start : Option Int
  endT : Option Int
  loopStreamId : Option String
  loopStreamStart : Option Int
  loopStreamEnd : Option Int
  done : Bool
  deriving DecidableEq, Repr

/-- Model of `DatabaseService.insertBroadcast`: computes `duration`, then
`INSERT OR REPLACE INTO broadcasts …` (the replace removes any row conflicting
on the primary key `id` or on `UNIQUE(broadcast_day, program_key)`), stamping
`updated_at = strftime('%s','now')`. Because the connection sets
`PRAGMA foreign_keys = ON` and `broadcast_items` declares
`FOREIGN KEY (broadcast_id) REFERENCES broadcasts(id) ON DELETE CASCADE`,
replacing a conflicting broadcast row also deletes that row's stored
`broadcast_items`. -/
def Db.insertBroadcast (db : Db) (nowSec : Int) (b : BParam) : Db :=
  let duration : Option Int :=
    if truthyI b.start && truthyI b.endT then some (jsNum b.endT - jsNum b.start) else none
  let row : BRow :=
    { id := b.id, broadcast_day := b.broadcastDay, program_key := b.programKey,
      title := b.title, state := b.state, start_time := b.start, end_time := b.endT,
      loop_stream_id := normS b.loopStreamId, loop_stream_start := normI b.loopStreamStart,
      loop_stream_end := normI b.loopStreamEnd, duration := duration, done := b.done,
      updated_at := nowSec }
  let replacedIds : List Int :=
    (db.broadcasts.filter (fun r =>
      r.id == b.id || (r.broadcast_day == b.broadcastDay && r.program_key == b.programKey))).map
      (fun r => r.id)
  { db with
    broadcasts :=
      (db.broadcasts.filter (fun r =>
        !(r.id == b.id || (r.broadcast_day == b.broadcastDay && r.program_key == b.programKey)))) ++ [row],
    items := db.items.filter (fun i => !replacedIds.contains i.broadcast_id) }

/-- Model of `DatabaseService.markBroadcastAsDone`:
`UPDATE broadcasts SET done = 1, updated_at = strftime('%s','now') WHERE id = ?`. -/
def Db.markBroadcastAsDone (db : Db) (nowSec : Int) (broadcastId : Int) : Db :=
  { db with broadcasts := db.broadcasts.map (fun r =>
      if r.id == broadcastId then { r with done := true, updated_at := nowSec } else r) }

/-- The record handed to `DatabaseService.insertBroadcastItem`
(the fields of `itemRecord` built by the scraper / live monitor). -/
structure IParam where
  item_id : Int
  broadcastDay : Option Int
  programKey : Option String
  type : Option String
  title : Option String
  interpreter : Option String
  description : Option String
  state : Option String
  isOnDemand : Bool
  isGeoProtected : Bool
  isCompleted : Bool
  duration : Option Int
  songId : Option String
  isAdFree : Bool
  start : Option Int
  startISO : Option String
  endT : Option Int
  endISO : Option String
  deriving DecidableEq, Repr

/-- Model of `DatabaseService.getBroadcastItems` (the `ORDER BY start_time` only orders
the returned view; it does not affect stored state, and no verified claim
depends on the reading order). -/
def Db.getBroadcastItems (db : Db) (broadcastId : Int) : List IRow :=
  db.items.filter (fun r => r.broadcast_id == broadcastId)

/-- Model of `DatabaseService.insertBroadcastItem`: reads the parent broadcast's
`start_time`, derives `start_offset`/`end_offset` when both operands are
truthy, then updates the row with the same `(broadcast_id, item_id)` if one
exists, else inserts a fresh row. Returns `lastInsertRowid` and the new store. -/
def Db.insertBroadcastItem (db : Db) (item : IParam) (broadcastId : Int) : Nat × Db :=
  let broadcastStart : Option Int := (db.getBroadcastById broadcastId).bind (·.start_time)
  let startOffset : Option Int :=
    if truthyI broadcastStart && truthyI item.start
    then some (jsNum item.start - jsNum broadcastStart) else none
  let endOffset : Option Int :=
    if truthyI broadcastStart && truthyI item.endT
    then some (jsNum item.endT - jsNum broadcastStart) else none
  match db.items.find? (fun r => r.broadcast_id == broadcastId && r.item_id == item.item_id) with
  | some existing =>
    (existing.rowId,
     { db with items := db.items.map (fun r =>
         if r.rowId == existing.rowId then
           { r with
             broadcast_day := item.broadcastDay, program_key := item.programKey,
             type := item.type, title := normS item.title, interpreter := normS item.interpreter,
             description := item.description, state := item.state,
             is_on_demand := item.isOnDemand, is_geo_protected := item.isGeoProtected,
             is_completed := item.isCompleted, duration := item.duration,
             song_id := item.songId, is_ad_free := item.isAdFree,
             start_time := item.start, start_iso := item.startISO,
             end_time := item.endT, end_iso := item.endISO,
             start_offset := startOffset, end_offset := endOffset }
         else r) })
  | none =>
    (db.nextItemRowId,
     { db with
       items := db.items ++
         [{ rowId := db.nextItemRowId, broadcast_id := broadcastId, item_id := item.item_id,
            broadcast_day := item.broadcastDay, program_key := item.programKey,
            type := item.type, title := normS item.title, interpreter := normS item.interpreter,
            description := item.description, state := item.state,
            is_on_demand := item.isOnDemand, is_geo_protected := item.isGeoProtected,
            is_completed := item.isCompleted, duration := item.duration,
            song_id := item.songId, is_ad_free := item.isAdFree,
            start_time := item.start, start_iso := item.startISO,
            end_time := item.endT, end_iso := item.endISO,
            start_offset := startOffset, end_offset := endOffset }],
       nextItemRowId := db.nextItemRowId + 1 })

/-- Model of `DatabaseService.getImageByHash`. -/
def Db.getImageByHash (db : Db) (hash : Int) (resolutionType : String) : Option ImageRow :=
  db.images.find? (fun r => r.hash == hash && r.resolution_type == resolutionType)

/-- The record handed to `DatabaseService.insertImage`. -/
structure ImgParam where
  hash : Int
  resolutionType : String
  filePath : String
  width : Option Int
  height : Option Int
  fileSize : Option Int
  deriving DecidableEq, Repr

/-- Model of `DatabaseService.insertImage`: `INSERT OR IGNORE INTO images …`
(ignored when a row with the same `(hash, resolution_type)` exists). -/
def Db.insertImage (db : Db) (img : ImgParam) : Db :=
  if (db.getImageByHash img.hash img.resolutionType).isSome then db
  else
    { db with
      images := db.images ++
        [{ id := db.nextImageId, hash := img.hash, resolution_type := img.resolutionType,
           file_path := img.filePath, width := img.width, height := img.height,
           file_size := img.fileSize }],
      nextImageId := db.nextImageId + 1 }

/-- Model of `DatabaseService.addImageReference`: `INSERT OR IGNORE INTO image_references …`
(ignored when the full `(entity_type, entity_id, image_id, resolution_type)`
quadruple already exists). -/
def Db.addImageReference (db : Db) (entityType : String) (entityId : Int)
    (imageId : Nat) (resolutionType : String) : Db :=
  if db.image_refs.contains
      { entity_type := entityType, entity_id := entityId,
        image_id := imageId, resolution_type := resolutionType } then db
  else
    { db with image_refs := db.image_refs ++
        [{ entity_type := entityType, entity_id := entityId,
           image_id := imageId, resolution_type := resolutionType }] }

/-- Model of `DatabaseService.getImageReferences` (two-argument form): the images joined
through `image_references` for one owning entity. -/
def Db.getImageReferences (db : Db) (entityType : String) (entityId : Int) : List ImageRow :=
  (db.image_refs.filter (fun r => r.entity_type == entityType && r.entity_id == entityId)).filterMap
    (fun r => db.images.find? (fun i => i.id == r.image_id))

/-- Model of `DatabaseService.insertProgramKey`: `INSERT OR REPLACE INTO program_keys …`
(`program_key` is UNIQUE). -/
def Db.insertProgramKey (db : Db) (programKey : String) (title : Option String) : Db :=
  { db with program_keys :=
      (db.program_keys.filter (fun p => p.1 != programKey)) ++ [(programKey, title)] }

/-- Model of `DatabaseService.setMetadata`: `INSERT OR REPLACE INTO metadata …`. -/
def Db.setMetadata (db : Db) (key value : String) : Db :=
  { db with metadata := (db.metadata.filter (fun p => p.1 != key)) ++ [(key, value)] }

/-! ## Upstream feed shapes (fm4-api.js responses) -/

/-- One entry of an image's `versions` array: reported width and download URL. -/
structure ImgVersion where
  width : Int
  path : String
  deriving DecidableEq, Repr

/-- One image attached to a broadcast or item (only the parts the engine reads). -/
structure ImgData where
  versions : List ImgVersion
  deriving DecidableEq, Repr

/-- One entry of a broadcast detail's `streams` array. -/
structure StreamData where
  loopStreamId : Option String
  start : Option Int
  endT : Option Int
  deriving DecidableEq, Repr

/-- An item as it appears in the broadcast-detail and live feeds. -/
structure BItemData where
  id : Int
  broadcastDay : Option Int
  programKey : Option String
  program : Option String
  type : Option String
  title : Option String
  interpreter : Option String
  description : Option String
  state : Option String
  isOnDemand : Bool
  isGeoProtected : Bool
  isCompleted : Bool
  duration : Option Int
  songId : Option String
  isAdFree : Bool
  start : Option Int
  startISO : Option String
  endT : Option Int
  endISO : Option String
  images : List ImgData
  deriving DecidableEq, Repr

/-- A broadcast detail as returned by `getBroadcastDetail(programKey, day)`. -/
structure BData where
  id : Int
  broadcastDay : Int
  programKey : String
  title : Option String
  state : Option String
  start : Option Int
  endT : Option Int
  streams : List StreamData
  images : List ImgData
  items : List BItemData
  deriving DecidableEq, Repr

/-- A broadcast as it appears in the live view (`getLive()`). -/
structure LiveB where
  id : Int
  programKey : String
  broadcastDay : Int
  state : String
  items : List BItemData
  deriving DecidableEq, Repr

/-- A per-day summary entry of the rolling broadcast list (`getBroadcasts()`). -/
structure SummaryB where
  programKey : String
  title : Option String
  deriving DecidableEq, Repr

/-- One day of the rolling broadcast list. -/
structure DayData where
  day : Option Int
  broadcasts : List SummaryB
  deriving DecidableEq, Repr

/-! ## Content-addressable image store (image-service.js) -/

/-- Environment of the image store: the download oracle plus the abstract byte
functions (content hash, sharp metadata, resize). Bytes are an abstract `Int`
content value; `hashOf` models SHA-256 of the downloaded bytes — all that is
used of it is that it is a function of the bytes. -/
structure ImgEnv where
  download : String → Except Unit Int
  hashOf : Int → Int
  widthOf : Int → Int
  heightOf : Int → Int
  formatOf : Int → String
  resize : Int → Int
  sizeOf : Int → Int
  maxWidth : Int

/-- The `imageRecord` built by `ImageService.processAndStoreImage` for freshly
downloaded bytes (image-service.js lines 44–81): resize high-resolution
sources wider than `maxWidth` and record the content-named file. -/
def imageRecordOf (E : ImgEnv) (buf : Int) (resolutionType : String) : ImgParam :=
  let w := E.widthOf buf
  let processed : Int × Int × Int :=
    if resolutionType == "high" && w > E.maxWidth then
      let pb := E.resize buf
      (pb, E.widthOf pb, E.heightOf pb)
    else (buf, w, E.heightOf buf)
  { hash := E.hashOf buf, resolutionType := resolutionType,
    filePath := toString (E.hashOf buf) ++ "_" ++ resolutionType ++ "." ++ E.formatOf buf,
    width := some processed.2.1, height := some processed.2.2,
    fileSize := some (E.sizeOf processed.1) }

/-- Model of `ImageService.processAndStoreImage`: download, hash the downloaded bytes,
reuse the existing Image row with this `(hash, resolutionType)` if present
(no write), else write the content-named file and insert the Image row built
by `imageRecordOf`. Its `try/catch` turns a failed download (or a failed
lookup after insert) into a `null` result. -/
def processAndStoreImage (E : ImgEnv) (db : Db) (imageUrl : String)
    (resolutionType : String) : Option ImageRow × Db :=
  match E.download imageUrl with
  | .error _ => (none, db)
  | .ok buf =>
    let hash := E.hashOf buf
    match db.getImageByHash hash resolutionType with
    | some existingImage => (some existingImage, db)
    | none =>
      let db' := db.insertImage (imageRecordOf E buf resolutionType)
      (db'.getImageByHash hash resolutionType, db')

/-- Model of `ImageService.processImageVersions`: pick the reported-widest version as the
high-resolution source and the narrowest as the low-resolution source
(JS `reduce` keeps the earlier element on ties), process both, sharing the
result when both picks are the same URL. -/
def processImageVersions (E : ImgEnv) (db : Db) (imageData : ImgData) :
    (Option ImageRow × Option ImageRow) × Db :=
  match imageData.versions with
  | [] => ((none, none), db)
  | v0 :: rest =>
    let largestVersion := rest.foldl (fun prev cur => if cur.width > prev.width then cur else prev) v0
    let smallestVersion := rest.foldl (fun prev cur => if cur.width < prev.width then cur else prev) v0
    let highRes := processAndStoreImage E db largestVersion.path "high"
    if smallestVersion.path != largestVersion.path then
      let lowRes := processAndStoreImage E highRes.2 smallestVersion.path "low"
      ((highRes.1, lowRes.1), lowRes.2)
    else ((highRes.1, highRes.1), highRes.2)

/-- Shared body of `ImageService.processBroadcastImages` and
`ImageService.processBroadcastItemImages` (the two functions are textually
identical up to the `entityType` string): skip entirely when the owning entity
already has ImageReferences, else process each image's versions and add the
high/low reference rows (when high and low resolved to the same Image, still
add a `low` reference to that Image). -/
def processOneEntityImage (E : ImgEnv) (entityType : String) (entityId : Int)
    (db : Db) (imageData : ImgData) : Db :=
  let r := processImageVersions E db imageData
  let high := r.1.1
  let low := r.1.2
  let db1 := r.2
  let db2 := match high with
    | some h => db1.addImageReference entityType entityId h.id "high"
    | none => db1
  match low with
  | none => db2
  | some l =>
    match high with
    | some h =>
      if l.id != h.id then db2.addImageReference entityType entityId l.id "low"
      else db2.addImageReference entityType entityId h.id "low"
    | none => db2.addImageReference entityType entityId l.id "low"

/-- Entry point of the shared body: skip when the entity already has
references, else run `processOneEntityImage` over each image. -/
def processEntityImages (E : ImgEnv) (entityType : String) (images : List ImgData)
    (entityId : Int) (db : Db) : Db :=
  if images.isEmpty then db
  else if !(db.getImageReferences entityType entityId).isEmpty then db
  else images.foldl (processOneEntityImage E entityType entityId) db

/-- Model of `ImageService.processBroadcastImages` (owning entity type `broadcast`). -/
def processBroadcastImages (E : ImgEnv) (images : List ImgData) (broadcastId : Int)
    (db : Db) : Db :=
  processEntityImages E "broadcast" images broadcastId db

/-- Model of `ImageService.processBroadcastItemImages` (owning entity type `broadcast_item`). -/
def processBroadcastItemImages (E : ImgEnv) (images : List ImgData) (itemId : Int)
    (db : Db) : Db :=
  processEntityImages E "broadcast_item" images itemId db

/-! ## Scraper (broadcast-scraper.js) -/

/-- The environment of one engine step: upstream oracles and clocks.
`fetch` is the settled result of `getBroadcastWithRetry` (`.error` = all retry
attempts failed and the exception propagates; `.ok none` = upstream 404).
`nowMs` is `Date.now()`; `nowSec` is the store clock `strftime('%s','now')`;
`today` is `formatBroadcastDay(new Date())` on the linear day axis. -/
structure Env where
  fetch : String → Int → Except Unit (Option BData)
  live : Except Unit (List LiveB)
  broadcastsList : Except Unit (List DayData)
  nowMs : Int
  nowSec : Int
  today : Int
  img : ImgEnv

/-- In-memory state of the `BroadcastScraper` singleton. -/
structure ScraperState where
  known : List String
  isRunning : Bool
  deriving DecidableEq, Repr

/-- Result of one `scrapeBroadcast` call: returned record, new store, new
scraper state, and the upstream detail fetches attempted during the call. -/
structure ScrapeOut where
  res : Option BRow
  db : Db
  sc : ScraperState
  fetches : List (String × Int)

/-- The `itemRecord` the scraper builds from a detail item
(`broadcast-scraper.js` lines 134–153: plain field copies). -/
def itemRecordOf (item : BItemData) : IParam :=
  { item_id := item.id, broadcastDay := item.broadcastDay, programKey := item.programKey,
    type := item.type, title := item.title, interpreter := item.interpreter,
    description := item.description, state := item.state, isOnDemand := item.isOnDemand,
    isGeoProtected := item.isGeoProtected, isCompleted := item.isCompleted,
    duration := item.duration, songId := item.songId, isAdFree := item.isAdFree,
    start := item.start, startISO := item.startISO, endT := item.endT, endISO := item.endISO }

/-- The scraper's per-item loop (`broadcast-scraper.js` lines 117–164): the set
of existing `item_id`s is computed once before the loop; each detail item not
in it is inserted and its images ingested for the freshly saved row. -/
def scrapeOneItem (E : ImgEnv) (resultId : Int) (existingItemIds : List Int)
    (db : Db) (item : BItemData) : Db :=
  if existingItemIds.contains item.id then db
  else
    let ins := db.insertBroadcastItem (itemRecordOf item) resultId
    match (ins.2.getBroadcastItems resultId).find? (fun i => i.item_id == item.id) with
    | some savedItem =>
      if item.images.isEmpty then ins.2
      else processBroadcastItemImages E item.images (savedItem.rowId : Int) ins.2
    | none => ins.2

/-- Entry point of the scraper's item loop: the stored item ids are read once,
then each detail item is handled by `scrapeOneItem`. -/
def scrapeItemsLoop (E : ImgEnv) (db : Db) (resultId : Int) (items : List BItemData) : Db :=
  let existingItemIds := (db.getBroadcastItems resultId).map (·.item_id)
  items.foldl (scrapeOneItem E resultId existingItemIds) db

/-- The fetch-and-persist part of `BroadcastScraper.scrapeBroadcast` (after the
done/recency guards): fetch the detail with retry, register a newly seen
program key, extract the first stream's loopstream fields, upsert the
broadcast, re-read it, ingest images, run the item loop, and mark the
broadcast done when its fetched end time is already in the past. A fetch
error (retries exhausted) is caught by the function's `try/catch` and yields
`null` with no store change. -/
def scrapeFetch (env : Env) (sc : ScraperState) (db : Db)
    (programKey : String) (broadcastDay : Int) : ScrapeOut :=
  match env.fetch programKey broadcastDay with
  | .error _ => { res := none, db := db, sc := sc, fetches := [(programKey, broadcastDay)] }
  | .ok none => { res := none, db := db, sc := sc, fetches := [(programKey, broadcastDay)] }
  | .ok (some bd) =>
    let reg : Db × ScraperState :=
      if sc.known.contains programKey then (db, sc)
      else (db.insertProgramKey programKey bd.title,
            { sc with known := sc.known ++ [programKey] })
    let ls : Option String × Option Int × Option Int :=
      match bd.streams with
      | [] => (none, none, none)
      | s :: _ => (s.loopStreamId, s.start, s.endT)
    let db2 := reg.1.insertBroadcast env.nowSec
      { id := bd.id, broadcastDay := bd.broadcastDay, programKey := bd.programKey,
        title := bd.title, state := bd.state, start := bd.start, endT := bd.endT,
        loopStreamId := ls.1, loopStreamStart := ls.2.1, loopStreamEnd := ls.2.2,
        done := false }
    match db2.getBroadcast broadcastDay programKey with
    | none =>
      { res := none, db := db2, sc := reg.2, fetches := [(programKey, broadcastDay)] }
    | some result =>
      let db3 := if bd.images.isEmpty then db2
                 else processBroadcastImages env.img bd.images result.id db2
      let db4 := if bd.items.isEmpty then db3
                 else scrapeItemsLoop env.img db3 result.id bd.items
      if truthyI bd.endT && decide (jsNum bd.endT < env.nowMs) then
        { res := some { result with done := true },
          db := db4.markBroadcastAsDone env.nowSec result.id, sc := reg.2,
          fetches := [(programKey, broadcastDay)] }
      else
        { res := some result, db := db4, sc := reg.2,
          fetches := [(programKey, broadcastDay)] }

/-- Model of `BroadcastScraper.scrapeBroadcast(programKey, broadcastDay, forceFetch)`.
Decision order as in the source: (1) a stored record with `done` is returned
unchanged; (2) a stored record updated within the last hour is returned
unchanged unless `forceFetch`; (3) otherwise fetch and persist. The recency
test `Date.now()/1000 - existing.updated_at < 3600` is the exact inequality
`nowMs < (updated_at + 3600) * 1000`. -/
def scrapeBroadcast (env : Env) (sc : ScraperState) (db : Db)
    (programKey : String) (broadcastDay : Int) (forceFetch : Bool) : ScrapeOut :=
  match db.getBroadcast broadcastDay programKey with
  | some existing =>
    if existing.done then { res := some existing, db := db, sc := sc, fetches := [] }
    else if forceFetch = false ∧ env.nowMs < (existing.updated_at + 3600) * 1000 then
      { res := some existing, db := db, sc := sc, fetches := [] }
    else scrapeFetch env sc db programKey broadcastDay
  | none => scrapeFetch env sc db programKey broadcastDay

/-! ## JS `Map` / `Set` semantics (insertion-ordered) for the monitor state -/

/-- Model of `Map.set`: update in place when the key exists, else append. -/
def mapSet {α : Type} (m : List (Int × α)) (k : Int) (v : α) : List (Int × α) :=
  if m.any (fun p => p.1 == k) then m.map (fun p => if p.1 == k then (k, v) else p)
  else m ++ [(k, v)]

/-- Model of `Map.delete`. -/
def mapDelete {α : Type} (m : List (Int × α)) (k : Int) : List (Int × α) :=
  m.filter (fun p => p.1 != k)

/-- Model of `Map.has`. -/
def mapHas {α : Type} (m : List (Int × α)) (k : Int) : Bool :=
  m.any (fun p => p.1 == k)

/-- Model of `Map.get` (`undefined` = `none`). -/
def mapGet? {α : Type} (m : List (Int × α)) (k : Int) : Option α :=
  (m.find? (fun p => p.1 == k)).map (·.2)

/-- JS `Set.add` on an insertion-ordered set of integers. -/
def setAdd (s : List Int) (x : Int) : List Int :=
  if s.contains x then s else s ++ [x]

/-! ## Live synchronization orchestrator (live-monitor.js) -/

/-- Value of `monitoredBroadcasts`: `broadcastId → { programKey, broadcastDay, lastCheck, state }`. -/
structure MonB where
  programKey : String
  broadcastDay : Int
  lastCheck : Int
  state : String
  deriving DecidableEq, Repr

/-- Value of `monitoredItems`: `itemId → { broadcastId, programKey, broadcastDay, endTime, state }`. -/
structure MonI where
  broadcastId : Int
  programKey : String
  broadcastDay : Int
  endTime : Option Int
  state : String
  deriving DecidableEq, Repr

/-- The `LiveMonitor` singleton's in-memory tracking state. -/
structure MonState where
  monitoredBroadcasts : List (Int × MonB)
  monitoredItems : List (Int × MonI)
  processedItems : List (Int × List Int)
  deriving DecidableEq, Repr

/-- The `itemRecord` built by `LiveMonitor.processLiveItems`
(live-monitor.js lines 47–66, with its `|| null` / `|| false` defaults). -/
def liveItemRecordOf (liveItem : BItemData) : IParam :=
  { item_id := liveItem.id, broadcastDay := liveItem.broadcastDay,
    programKey := orS liveItem.programKey liveItem.program, type := liveItem.type,
    title := normS liveItem.title, interpreter := normS liveItem.interpreter,
    description := normS liveItem.description, state := liveItem.state,
    isOnDemand := liveItem.isOnDemand, isGeoProtected := liveItem.isGeoProtected,
    isCompleted := liveItem.isCompleted, duration := normI liveItem.duration,
    songId := normS liveItem.songId, isAdFree := liveItem.isAdFree,
    start := normI liveItem.start, startISO := normS liveItem.startISO,
    endT := normI liveItem.endT, endISO := normS liveItem.endISO }

/-- One iteration of the `LiveMonitor.processLiveItems` loop: insert (and
image-ingest) a live item whose id is neither in the processed cache nor in
the store, and mark every visited id as processed. -/
def processOneLiveItem (env : Env) (storedBroadcastId : Int) (existingItemIds : List Int)
    (acc : Db × List Int) (liveItem : BItemData) : Db × List Int :=
  let itemId := liveItem.id
  if acc.2.contains itemId then acc
  else if !existingItemIds.contains itemId then
    let ins := acc.1.insertBroadcastItem (liveItemRecordOf liveItem) storedBroadcastId
    let db2 := if liveItem.images.isEmpty then ins.2
               else processBroadcastItemImages env.img liveItem.images (ins.1 : Int) ins.2
    (db2, acc.2 ++ [itemId])
  else (acc.1, acc.2 ++ [itemId])

/-- Model of `LiveMonitor.processLiveItems(broadcast, storedBroadcastId)`:
initialize the per-broadcast processed cache, read the stored item ids once,
then run `processOneLiveItem` over every item in the live view. -/
def processLiveItems (env : Env) (ms : MonState) (broadcast : LiveB)
    (storedBroadcastId : Int) (db : Db) : Db × MonState :=
  if broadcast.items.isEmpty then (db, ms)
  else
    let broadcastId := broadcast.id
    let cache0 := (mapGet? ms.processedItems broadcastId).getD []
    let existingItemIds := (db.getBroadcastItems storedBroadcastId).map (·.item_id)
    let r := broadcast.items.foldl
      (processOneLiveItem env storedBroadcastId existingItemIds) (db, cache0)
    (r.1, { ms with processedItems := mapSet ms.processedItems broadcastId r.2 })

/-- Accumulated result of one `checkLiveAndUpdate` tick: monitor state, store,
scraper state, and the `scrapeBroadcast` calls triggered (in order). -/
structure TickSt where
  ms : MonState
  db : Db
  sc : ScraperState
  calls : List (String × Int)

/-- Per-item step of the tick's item loop (live-monitor.js lines 149–173):
a not-completed started/playing item enters `monitoredItems`; an item in any
other observed state that is currently monitored triggers a parent re-fetch
and leaves the set. -/
def monitorOneItem (env : Env) (b : LiveB) (t : TickSt) (item : BItemData) : TickSt :=
  let itemId := item.id
  if !item.isCompleted && (item.state == some "S" || item.state == some "P") then
    { t with ms := { t.ms with
        monitoredItems := mapSet t.ms.monitoredItems itemId
          { broadcastId := b.id, programKey := b.programKey,
            broadcastDay := b.broadcastDay, endTime := item.endT,
            state := item.state.getD "" } } }
  else if mapHas t.ms.monitoredItems itemId then
    let o := scrapeBroadcast env t.sc t.db b.programKey b.broadcastDay true
    { ms := { t.ms with monitoredItems := mapDelete t.ms.monitoredItems itemId },
      db := o.db, sc := o.sc, calls := t.calls ++ [(b.programKey, b.broadcastDay)] }
  else t

/-- The per-broadcast body of `checkLiveAndUpdate` (live-monitor.js lines
96–174): force-fetch incomplete broadcasts and reconcile their live items;
for completed ones do at most one cooled-down final fetch and drop the
tracking entries; then walk the broadcast's items, entering incomplete
started/playing items into `monitoredItems` and removing (with a parent
re-fetch) monitored items observed in any other state. The cooldown test
`Date.now()/1000 - existing.updated_at > 300` is the exact inequality
`nowMs > (updated_at + 300) * 1000`. -/
def tickBroadcast (env : Env) (t : TickSt) (b : LiveB) : TickSt :=
  let isIncomplete := b.state != "C"
  let t1 : TickSt :=
    if isIncomplete then
      let o := scrapeBroadcast env t.sc t.db b.programKey b.broadcastDay true
      let afterItems : Db × MonState :=
        match o.db.getBroadcast b.broadcastDay b.programKey with
        | some storedBroadcast => processLiveItems env t.ms b storedBroadcast.id o.db
        | none => (o.db, t.ms)
      { ms := { afterItems.2 with
          monitoredBroadcasts := mapSet afterItems.2.monitoredBroadcasts b.id
            { programKey := b.programKey, broadcastDay := b.broadcastDay,
              lastCheck := env.nowMs, state := b.state } },
        db := afterItems.1, sc := o.sc,
        calls := t.calls ++ [(b.programKey, b.broadcastDay)] }
    else
      let refetched : Db × ScraperState × List (String × Int) :=
        match t.db.getBroadcast b.broadcastDay b.programKey with
        | some existing =>
          if env.nowMs > (existing.updated_at + 300) * 1000 then
            let o := scrapeBroadcast env t.sc t.db b.programKey b.broadcastDay true
            (o.db, o.sc, t.calls ++ [(b.programKey, b.broadcastDay)])
          else (t.db, t.sc, t.calls)
        | none => (t.db, t.sc, t.calls)
      { ms := { t.ms with
          monitoredBroadcasts := mapDelete t.ms.monitoredBroadcasts b.id,
          processedItems := mapDelete t.ms.processedItems b.id },
        db := refetched.1, sc := refetched.2.1, calls := refetched.2.2 }
  b.items.foldl (monitorOneItem env b) t1

/-- The end-time sweep of `checkLiveAndUpdate` (live-monitor.js lines 177–184):
every monitored item whose expected end time has passed triggers a parent
re-fetch but stays monitored ("Keep monitoring until we confirm it's
completed"). A `null` end time compares as `0` under JS `>=`. -/
def sweepOne (env : Env) (t : TickSt) (entry : Int × MonI) : TickSt :=
  if env.nowMs ≥ jsNum entry.2.endTime then
    let o := scrapeBroadcast env t.sc t.db entry.2.programKey entry.2.broadcastDay true
    { t with
      db := o.db, sc := o.sc,
      calls := t.calls ++ [(entry.2.programKey, entry.2.broadcastDay)] }
  else t

/-- Entry point of the end-time sweep: fold `sweepOne` over the monitored
items. -/
def tickSweep (env : Env) (t : TickSt) : TickSt :=
  t.ms.monitoredItems.foldl (sweepOne env) t

/-- Model of `LiveMonitor.checkLiveAndUpdate`: one poll tick. A failed live fetch is
caught (tick abandoned, nothing changed); an empty live view is a no-op;
otherwise each live broadcast is processed and the end-time sweep runs. -/
def checkLiveAndUpdate (env : Env) (ms : MonState) (db : Db) (sc : ScraperState) : TickSt :=
  match env.live with
  | .error _ => { ms := ms, db := db, sc := sc, calls := [] }
  | .ok liveData =>
    if liveData.isEmpty then { ms := ms, db := db, sc := sc, calls := [] }
    else tickSweep env (liveData.foldl (tickBroadcast env)
      { ms := ms, db := db, sc := sc, calls := [] })

/-! ## Historical backfill (broadcast-scraper.js, scrapeHistoricalBroadcasts) -/

/-- Model of `BroadcastScraper.getDaysDifference` on the linear day axis: the calendar
distance `Math.ceil(Math.abs(newer - older) / 86400000)` is exactly the
absolute difference of the day numbers. -/
def getDaysDifference (olderDay newerDay : Int) : Int :=
  ((newerDay - olderDay).natAbs : Int)

/-- One step of `discoverProgramKeys`: register a rolling-list entry's program
key when it is truthy and not yet known. -/
def discoverOne (acc : Db × ScraperState) (b : SummaryB) : Db × ScraperState :=
  if truthyS (some b.programKey) && !acc.2.known.contains b.programKey then
    (acc.1.insertProgramKey b.programKey b.title,
     { acc.2 with known := acc.2.known ++ [b.programKey] })
  else acc

/-- Per-day step of `discoverProgramKeys`. -/
def discoverDay (acc : Db × ScraperState) (dayData : DayData) : Db × ScraperState :=
  dayData.broadcasts.foldl discoverOne acc

/-- Model of `BroadcastScraper.discoverProgramKeys`: fetch the rolling list and register
every program key not yet known (its own `try/catch` makes a failed fetch a
no-op). -/
def discoverProgramKeys (env : Env) (sc : ScraperState) (db : Db) : Db × ScraperState :=
  match env.broadcastsList with
  | .error _ => (db, sc)
  | .ok broadcastsData => broadcastsData.foldl discoverDay (db, sc)

/-- Result of `scrapeHistoricalBroadcasts`: the store, the scraper state and
the `(programKey, day)` scrape calls probed by the additional-days walk
(phase three; the live and rolling-list scrapes are not probes). -/
structure HistOut where
  db : Db
  sc : ScraperState
  probes : List (String × Int)

/-- One probe of the additional-days walk: scrape one known program key for
one historical day, appending the probe to the log. -/
def probeOneKey (env : Env) (broadcastDay : Int)
    (acc : Db × ScraperState × List (String × Int)) (programKey : String) :
    Db × ScraperState × List (String × Int) :=
  let o := scrapeBroadcast env acc.2.1 acc.1 programKey broadcastDay false
  (o.db, o.sc, acc.2.2 ++ [(programKey, broadcastDay)])

/-- One day of the additional-days walk (`i`-th step back): skip days the
rolling list already covered, else probe every known program key. -/
def backfillDay (env : Env) (daysSet : List Int) (programKeys : List String)
    (startOffset : Int) (acc : Db × ScraperState × List (String × Int)) (i : Nat) :
    Db × ScraperState × List (String × Int) :=
  let daysAgo := startOffset + i + 1
  let broadcastDay := env.today - daysAgo
  if daysSet.contains broadcastDay then acc
  else programKeys.foldl (probeOneKey env broadcastDay) acc

/-- The additional-days walk of `scrapeHistoricalBroadcasts` (lines 237–269):
for each of `additionalDaysNeeded` steps, walk one day further back from
`startOffset + 1` days ago, skip days the rolling list already covered, and
scrape every known program key for the day. -/
def backfillWalk (env : Env) (daysSet : List Int) (programKeys : List String)
    (startOffset : Int) (additionalDaysNeeded : Nat) (db : Db) (sc : ScraperState) :
    Db × ScraperState × List (String × Int) :=
  (List.range additionalDaysNeeded).foldl
    (backfillDay env daysSet programKeys startOffset) (db, sc, [])

/-- Phase-one step of the historical/recent scrape: force-fetch one live-view
broadcast. -/
def scrapeLiveOne (env : Env) (acc : Db × ScraperState) (lb : LiveB) : Db × ScraperState :=
  let o := scrapeBroadcast env acc.2 acc.1 lb.programKey lb.broadcastDay true
  (o.db, o.sc)

/-- One rolling-list scrape of phase two: scrape one listed broadcast summary
for its day (no force). -/
def scrapeSummaryOne (env : Env) (day : Int) (a : Db × ScraperState) (b : SummaryB) :
    Db × ScraperState :=
  let o := scrapeBroadcast env a.2 a.1 b.programKey day false
  (o.db, o.sc)

/-- Per-day step of phase two of `scrapeHistoricalBroadcasts`: record a truthy
day in the covered set and scrape everything the list names for it. -/
def listPhaseStep (env : Env) (acc : List Int × Db × ScraperState) (dayData : DayData) :
    List Int × Db × ScraperState :=
  match dayData.day with
  | some day =>
    if day != 0 then
      (setAdd acc.1 day,
       dayData.broadcasts.foldl (scrapeSummaryOne env day) (acc.2.1, acc.2.2))
    else acc
  | none => acc

/-- Minimum of a list of day numbers (`Math.min(...Array.from(set))`). -/
def minList (s : List Int) : Int := s.foldl min (s.headD 0)

/-- Model of `BroadcastScraper.scrapeHistoricalBroadcasts(daysBack)`: no-op when already
running; else force-fetch everything the live view names, scrape everything
the rolling list names while collecting the days it covers, then walk
backward from the day beyond the oldest covered day for
`max(0, daysBack − coveredDays)` further days, scraping every known program
key for each. Upstream fetch failures are caught (the run ends early with the
running flag reset). -/
def scrapeHistoricalBroadcasts (env : Env) (sc : ScraperState) (db : Db)
    (daysBack : Int) : HistOut :=
  if sc.isRunning then { db := db, sc := sc, probes := [] }
  else
    let sc := { sc with isRunning := true }
    match env.live with
    | .error _ => { db := db, sc := { sc with isRunning := false }, probes := [] }
    | .ok liveData =>
      let phase1 : Db × ScraperState := liveData.foldl (scrapeLiveOne env) (db, sc)
      match env.broadcastsList with
      | .error _ =>
        { db := phase1.1, sc := { phase1.2 with isRunning := false }, probes := [] }
      | .ok broadcastsData =>
        let disc := discoverProgramKeys env phase1.2 phase1.1
        let phase2 : List Int × Db × ScraperState :=
          broadcastsData.foldl (listPhaseStep env) ([], disc.1, disc.2)
        let daysInBroadcasts := phase2.1
        let oldestDay : Option Int :=
          if daysInBroadcasts.isEmpty then none else some (minList daysInBroadcasts)
        let daysAlreadyScraped : Int := (daysInBroadcasts.length : Int)
        let additionalDaysNeeded : Int := max 0 (daysBack - daysAlreadyScraped)
        let startOffset : Int :=
          if truthyI oldestDay then getDaysDifference (jsNum oldestDay) env.today else 0
        let walked :=
          if additionalDaysNeeded > 0 then
            backfillWalk env daysInBroadcasts phase2.2.2.known startOffset
              additionalDaysNeeded.toNat phase2.2.1 phase2.2.2
          else (phase2.2.1, phase2.2.2, [])
        { db := walked.1.setMetadata "last_full_scrape" (toString env.nowMs),
          sc := { walked.2.1 with isRunning := false }, probes := walked.2.2 }

/-! ## Loopstream URL policy (broadcast-transformer.js) -/

/-- The shape of a loopstream playback URL (the `progressive` / `hls` query
parameters; both endpoints receive the same parameters). `dateRange` carries
the values rendered by `formatDateTimeForLoopstream(start)` and
`formatDateForLoopstream(end-of-broadcast-day)` — the item start timestamp
and the broadcast day; `offsetParams` carries `id`, `offset`, `offsetende`. -/
inductive LoopUrl where
  | dateRange (startTime : Int) (endeDay : Int)
  | offsetParams (id : String) (offset : Int) (offsetende : Int)
  deriving DecidableEq, Repr

/-- Model of `BroadcastTransformer.buildLiveBroadcastItemUrl` (and its hls twin):
`null` unless both the item start time and the broadcast day are truthy. -/
def buildLiveBroadcastItemUrl (itemStartTime broadcastDay : Option Int) : Option LoopUrl :=
  if truthyI itemStartTime && truthyI broadcastDay then
    some (.dateRange (jsNum itemStartTime) (jsNum broadcastDay))
  else none

/-- Model of `BroadcastTransformer.buildLoopstreamUrl` (and its hls twin):
`null` for a falsy loopstream id. -/
def buildLoopstreamUrl (loopStreamId : Option String) (offset offsetende : Int) : Option LoopUrl :=
  match loopStreamId with
  | some lsid => if lsid == "" then none else some (.offsetParams lsid offset offsetende)
  | none => none

/-- The `loopstream` object attached to a transformed item. -/
structure LoopstreamOut where
  id : String
  broadcastStart : Option Int
  broadcastEnd : Option Int
  isLive : Bool
  progressive : Option LoopUrl
  hls : Option LoopUrl
  deriving DecidableEq, Repr

/-- A transformed broadcast item (the API shape built by
`BroadcastTransformer.transformBroadcastItem`). -/
structure TItem where
  id : Int
  broadcastDay : Option Int
  programKey : Option String
  type : Option String
  title : Option String
  interpreter : Option String
  description : Option String
  state : Option String
  isOnDemand : Bool
  isGeoProtected : Bool
  isCompleted : Bool
  duration : Option Int
  songId : Option String
  isAdFree : Bool
  start : Option Int
  startISO : Option String
  endT : Option Int
  endISO : Option String
  startOffset : Option Int
  endOffset : Option Int
  imagesHigh : List ImageRow
  imagesLow : List ImageRow
  loopstream : Option LoopstreamOut
  deriving DecidableEq, Repr

/-- Model of `BroadcastTransformer.transformBroadcastItem(item, baseUrl, broadcast)`:
read-only view construction. When the parent has a truthy `loop_stream_id`,
a not-`done` parent with a truthy item start time yields the date-range URLs
(`isLive = true`); otherwise the offset-based URLs with
`itemOffset = item.start_time - broadcast.loop_stream_start` (JS coerces a
`null` operand to `0`). The unused `itemDuration` local of the source is not
modelled. -/
def transformBroadcastItem (db : Db) (item : IRow) (broadcast : Option BRow) : TItem :=
  let images := db.getImageReferences "broadcast_item" (item.rowId : Int)
  let base : TItem :=
    { id := item.item_id, broadcastDay := item.broadcast_day, programKey := item.program_key,
      type := item.type, title := item.title, interpreter := item.interpreter,
      description := item.description, state := item.state,
      isOnDemand := item.is_on_demand, isGeoProtected := item.is_geo_protected,
      isCompleted := item.is_completed, duration := item.duration, songId := item.song_id,
      isAdFree := item.is_ad_free, start := item.start_time, startISO := item.start_iso,
      endT := item.end_time, endISO := item.end_iso, startOffset := item.start_offset,
      endOffset := item.end_offset,
      imagesHigh := images.filter (fun i => i.resolution_type == "high"),
      imagesLow := images.filter (fun i => i.resolution_type == "low"),
      loopstream := none }
  match broadcast with
  | none => base
  | some b =>
    if truthyS b.loop_stream_id then
      let isLive := !b.done
      if isLive && truthyI item.start_time then
        { base with
          loopstream := some
            { id := b.loop_stream_id.getD "", broadcastStart := b.loop_stream_start,
              broadcastEnd := b.loop_stream_end, isLive := true,
              progressive := buildLiveBroadcastItemUrl item.start_time item.broadcast_day,
              hls := buildLiveBroadcastItemUrl item.start_time item.broadcast_day } }
      else
        let itemOffset := jsNum item.start_time - jsNum b.loop_stream_start
        { base with
          loopstream := some
            { id := b.loop_stream_id.getD "", broadcastStart := b.loop_stream_start,
              broadcastEnd := b.loop_stream_end, isLive := false,
              progressive := buildLoopstreamUrl b.loop_stream_id itemOffset 0,
              hls := buildLoopstreamUrl b.loop_stream_id itemOffset 0 } }
    else base

/-! ## Shared helpers for the verification theorems -/

/-- Helper: a sequence of `scrapeBroadcast` calls for one `(programKey, day)`,
threading scraper state and store through the calls. -/
def runScrapes (programKey : String) (broadcastDay : Int)
    (calls : List (Env × Bool)) (st : ScraperState × Db) : ScraperState × Db :=
  calls.foldl (fun st c =>
    let o := scrapeBroadcast c.1 st.1 st.2 programKey broadcastDay c.2
    (o.sc, o.db)) st

theorem runScrapes_cons (programKey : String) (broadcastDay : Int) (c : Env × Bool)
    (cs : List (Env × Bool)) (st : ScraperState × Db) :
    runScrapes programKey broadcastDay (c :: cs) st =
      runScrapes programKey broadcastDay cs
        ((scrapeBroadcast c.1 st.1 st.2 programKey broadcastDay c.2).sc,
         (scrapeBroadcast c.1 st.1 st.2 programKey broadcastDay c.2).db) := rfl

/-- Helper: `find?` over a list extended with one matching element. -/
theorem find?_append_singleton {α : Type} (p : α → Bool) (l : List α) (a : α)
    (h : l.find? p = none) (ha : p a = true) : (l ++ [a]).find? p = some a := by
  rw [List.find?_append, h]
  simp [ha]

/-- Helper: `find?` over a mapped list when the map does not change the
searched predicate. -/
theorem find?_map_invariant {α : Type} (p : α → Bool) (u : α → α)
    (hpu : ∀ a, p (u a) = p a) :
    ∀ (l : List α) (e : α), l.find? p = some e → (l.map u).find? p = some (u e) := by
  intro l
  induction l with
  | nil => intro e h; simp at h
  | cons a t ih =>
    intro e h
    by_cases hpa : p a = true
    · rw [List.find?_cons_of_pos _ hpa] at h
      cases h
      rw [List.map_cons, List.find?_cons_of_pos _ (by rw [hpu a]; exact hpa)]
    · rw [List.find?_cons_of_neg _ hpa] at h
      rw [List.map_cons, List.find?_cons_of_neg _ (by rw [hpu a]; exact hpa)]
      exact ih e h

/-- Trivial image environment for concrete witnesses. -/
def imgT : ImgEnv :=
  { download := fun _ => .error (), hashOf := id, widthOf := fun _ => 0,
    heightOf := fun _ => 0, formatOf := fun _ => "jpg", resize := id,
    sizeOf := fun _ => 0, maxWidth := 1750 }

/-- Trivial environment for concrete witnesses: every upstream fetch fails. -/
def envT : Env :=
  { fetch := fun _ _ => .error (), live := .error (), broadcastsList := .error (),
    nowMs := 0, nowSec := 0, today := 0, img := imgT }

/-- Sample broadcast row for concrete witnesses. -/
def sampleBRow : BRow :=
  { id := 11, broadcast_day := 20250101, program_key := "4TV", title := some "t",
    state := some "C", start_time := some 1000, end_time := some 2000,
    loop_stream_id := some "LS", loop_stream_start := some 1000,
    loop_stream_end := some 2000, duration := some 1000, done := true,
    updated_at := 50 }

/-- Sample item parameters for concrete witnesses. -/
def sampleIParam : IParam :=
  { item_id := 77, broadcastDay := some 20250101, programKey := some "4TV",
    type := some "M", title := some "song", interpreter := some "artist",
    description := none, state := some "C", isOnDemand := false,
    isGeoProtected := false, isCompleted := true, duration := some 300,
    songId := none, isAdFree := false, start := some 1500, startISO := none,
    endT := some 1800, endISO := none }

/-! ## C1: finalized broadcasts are immutable to the scraper -/

/-- **C1**: for every stored broadcast with `done = true`, every
`scrapeBroadcast(programKey, day, forceFetch)` call — for any `forceFetch` —
returns the stored record unchanged, performs no store write and no upstream
fetch; hence no sequence of further `scrapeBroadcast` calls for this
`(programKey, day)` changes the store at all, and the record keeps `done = true`. -/
theorem done_broadcast_immutable (db : Db) (programKey : String) (broadcastDay : Int)
    (ex : BRow) (h1 : db.getBroadcast broadcastDay programKey = some ex)
    (h2 : ex.done = true) :
    (∀ (env : Env) (sc : ScraperState) (forceFetch : Bool),
      scrapeBroadcast env sc db programKey broadcastDay forceFetch =
        { res := some ex, db := db, sc := sc, fetches := [] }) ∧
    (∀ (calls : List (Env × Bool)) (sc : ScraperState),
      runScrapes programKey broadcastDay calls (sc, db) = (sc, db) ∧
      ((runScrapes programKey broadcastDay calls (sc, db)).2.getBroadcast broadcastDay
          programKey = some ex)) := by
  have hone : ∀ (env : Env) (sc : ScraperState) (f : Bool),
      scrapeBroadcast env sc db programKey broadcastDay f =
        { res := some ex, db := db, sc := sc, fetches := [] } := by
    intro env sc f
    unfold scrapeBroadcast
    rw [h1]
    simp [h2]
  refine ⟨hone, ?_⟩
  intro calls
  induction calls with
  | nil => intro sc; exact ⟨rfl, h1⟩
  | cons c cs ih =>
    intro sc
    rw [runScrapes_cons, hone c.1 sc c.2]
    exact ih sc

/-- Witness for C1 at a concrete store, environment and call sequence. -/
theorem done_broadcast_immutable_witness :
    (scrapeBroadcast envT { known := [], isRunning := false }
        { Db.empty with broadcasts := [sampleBRow] } "4TV" 20250101 true =
      { res := some sampleBRow, db := { Db.empty with broadcasts := [sampleBRow] },
        sc := { known := [], isRunning := false }, fetches := [] }) ∧
    (runScrapes "4TV" 20250101 [(envT, true), (envT, false)]
        ({ known := [], isRunning := false }, { Db.empty with broadcasts := [sampleBRow] }) =
      ({ known := [], isRunning := false }, { Db.empty with broadcasts := [sampleBRow] })) := by
  have h := done_broadcast_immutable { Db.empty with broadcasts := [sampleBRow] }
    "4TV" 20250101 sampleBRow (by decide) (by decide)
  exact ⟨h.1 envT _ true, (h.2 [(envT, true), (envT, false)] _).1⟩

/-! ## C6: recency skip -/

/-- **C6**: a stored, not-done record updated within the last hour makes
`scrapeBroadcast(key, day, false)` return it unchanged with no upstream fetch
and no store write (in particular `updated_at` is unchanged); a second
unforced call whose clock is still within the hour likewise fetches nothing,
so the two-call sequence leaves the store untouched. -/
theorem recency_skip (db : Db) (programKey : String) (broadcastDay : Int) (ex : BRow)
    (env : Env) (sc : ScraperState)
    (h1 : db.getBroadcast broadcastDay programKey = some ex) (h2 : ex.done = false)
    (h3 : env.nowMs < (ex.updated_at + 3600) * 1000) :
    scrapeBroadcast env sc db programKey broadcastDay false =
      { res := some ex, db := db, sc := sc, fetches := [] } ∧
    ∀ env2 : Env, env2.nowMs < (ex.updated_at + 3600) * 1000 →
      scrapeBroadcast env2 sc db programKey broadcastDay false =
        { res := some ex, db := db, sc := sc, fetches := [] } ∧
      runScrapes programKey broadcastDay [(env, false), (env2, false)] (sc, db) = (sc, db) := by
  have hone : ∀ e : Env, e.nowMs < (ex.updated_at + 3600) * 1000 →
      scrapeBroadcast e sc db programKey broadcastDay false =
        { res := some ex, db := db, sc := sc, fetches := [] } := by
    intro e he
    unfold scrapeBroadcast
    rw [h1]
    simp [h2, he]
  refine ⟨hone env h3, fun env2 h4 => ⟨hone env2 h4, ?_⟩⟩
  rw [runScrapes_cons, hone env h3]
  rw [runScrapes_cons]
  simp only
  rw [hone env2 h4]
  rfl

/-- Witness for C6 at a concrete store and clocks. -/
theorem recency_skip_witness :
    scrapeBroadcast { envT with nowMs := 3000000 } { known := [], isRunning := false }
        { Db.empty with broadcasts := [{ sampleBRow with done := false }] }
        "4TV" 20250101 false =
      { res := some { sampleBRow with done := false },
        db := { Db.empty with broadcasts := [{ sampleBRow with done := false }] },
        sc := { known := [], isRunning := false }, fetches := [] } := by
  have h := recency_skip { Db.empty with broadcasts := [{ sampleBRow with done := false }] }
    "4TV" 20250101 { sampleBRow with done := false } { envT with nowMs := 3000000 }
    { known := [], isRunning := false } (by decide) (by decide) (by decide)
  exact h.1

/-! ## C7: item offset derivation -/

/-- **C7**: inserting an item under a parent broadcast whose stored start time
is `T0 > 0`, with item start time `T1 ≥ T0`, stores
`startOffset = T1 - T0` exactly, and stores `endOffset = T2 - T0` for a
present (truthy) item end time `T2`. -/
theorem item_offset_derivation (db : Db) (broadcastId : Int) (b : BRow) (item : IParam)
    (T0 T1 : Int) (hb : db.getBroadcastById broadcastId = some b)
    (hT0 : b.start_time = some T0) (h0 : 0 < T0) (hT1 : item.start = some T1)
    (hle : T0 ≤ T1) :
    ∃ r : IRow,
      ((db.insertBroadcastItem item broadcastId).2.items.find? (fun r =>
          r.broadcast_id == broadcastId && r.item_id == item.item_id)) = some r ∧
      r.start_offset = some (T1 - T0) ∧
      (∀ T2 : Int, item.endT = some T2 → T2 ≠ 0 → r.end_offset = some (T2 - T0)) := by
  have hT0ne : T0 ≠ 0 := by omega
  have hT1ne : T1 ≠ 0 := by omega
  have e0 : truthyI (some T0) = true := by simp [truthyI, hT0ne]
  have e1 : truthyI item.start = true := by rw [hT1]; simp [truthyI, hT1ne]
  have n1 : item.start.getD 0 = T1 := by rw [hT1]; rfl
  simp only [Db.insertBroadcastItem, hb, Option.some_bind, hT0, e0, e1, jsNum,
    Bool.true_and, if_true]
  cases hfind : db.items.find? (fun r =>
      r.broadcast_id == broadcastId && r.item_id == item.item_id) with
  | some existing =>
    simp only
    refine ⟨_, find?_map_invariant _ _ ?_ db.items existing hfind, ?_, ?_⟩
    · intro a
      by_cases hid : (a.rowId == existing.rowId) = true
      · simp [hid]
      · simp [hid]
    · simp [n1]
    · intro T2 hT2 hT2ne
      have htr2 : truthyI item.endT = true := by rw [hT2]; simp [truthyI, hT2ne]
      simp [htr2, hT2, truthyI, hT2ne]
  | none =>
    simp only
    refine ⟨_, find?_append_singleton _ _ _ hfind (by simp), ?_, ?_⟩
    · simp [n1]
    · intro T2 hT2 hT2ne
      have htr2 : truthyI item.endT = true := by rw [hT2]; simp [truthyI, hT2ne]
      simp [htr2, hT2, truthyI, hT2ne]

/-! ## C4: loopstream URL mode switch -/

/-- Concrete stored item with a `NULL` start time, for the C4 counterexample
(the live monitor stores such items from the live view). -/
def itemNoStart : IRow :=
  { rowId := 3, broadcast_id := 11, item_id := 77, broadcast_day := some 20250101,
    program_key := some "4TV", type := some "M", title := none, interpreter := none,
    description := none, state := some "C", is_on_demand := false, is_geo_protected := false,
    is_completed := true, duration := some 300, song_id := none, is_ad_free := false,
    start_time := none, start_iso := none, end_time := some 1800, end_iso := none,
    start_offset := none, end_offset := none }

/-- Concrete stored item with a start time, for the C4 witness. -/
def sampleIRow : IRow :=
  { itemNoStart with
    start_time := some 1500, start_offset := some 500, end_offset := some 800 }

/-- Counterexample to C4 as stated: the parent broadcast has `done = false`
and a loopstream id, yet the stored item (which has no start time) is given
the offset-based loopstream URL, not a date-range one — the URL mode is not
keyed purely off the `done` flag. -/
theorem url_mode_switch_counterexample :
    (transformBroadcastItem Db.empty itemNoStart
        (some { sampleBRow with done := false })).loopstream =
      some { id := "LS", broadcastStart := some 1000, broadcastEnd := some 2000,
             isLive := false,
             progressive := some (.offsetParams "LS" (0 - 1000) 0),
             hls := some (.offsetParams "LS" (0 - 1000) 0) } := by decide

/-- **C4 (amended)**: for every stored item with a truthy start time and
broadcast day whose parent broadcast has a truthy loopstream id, the
loopstream URLs are date-range based (item start, broadcast day) exactly
while `done = false`, and offset-based
(`offset = start_time - loop_stream_start`) once `done = true`; and toggling
only `done` changes nothing in the transformed item except the `loopstream`
object. Items without a truthy start time get the offset-based form even
while not done (see the counterexample). -/
theorem url_mode_switch (db : Db) (item : IRow) (b : BRow) (lsid : String)
    (hls : b.loop_stream_id = some lsid) (hne : lsid ≠ "")
    (T1 : Int) (hT1 : item.start_time = some T1) (hT1ne : T1 ≠ 0)
    (d : Int) (hd : item.broadcast_day = some d) (hdne : d ≠ 0) :
    (b.done = false → (transformBroadcastItem db item (some b)).loopstream =
      some { id := lsid, broadcastStart := b.loop_stream_start,
             broadcastEnd := b.loop_stream_end, isLive := true,
             progressive := some (.dateRange T1 d), hls := some (.dateRange T1 d) }) ∧
    (b.done = true → (transformBroadcastItem db item (some b)).loopstream =
      some { id := lsid, broadcastStart := b.loop_stream_start,
             broadcastEnd := b.loop_stream_end, isLive := false,
             progressive := some (.offsetParams lsid (T1 - jsNum b.loop_stream_start) 0),
             hls := some (.offsetParams lsid (T1 - jsNum b.loop_stream_start) 0) }) ∧
    (∀ done1 done2 : Bool,
      { transformBroadcastItem db item (some { b with done := done1 }) with
          loopstream := none } =
      { transformBroadcastItem db item (some { b with done := done2 }) with
          loopstream := none }) := by
  have hlsS : truthyS b.loop_stream_id = true := by rw [hls]; simp [truthyS, hne]
  have hT1t : truthyI item.start_time = true := by rw [hT1]; simp [truthyI, hT1ne]
  have hdt : truthyI item.broadcast_day = true := by rw [hd]; simp [truthyI, hdne]
  refine ⟨?_, ?_, ?_⟩
  · intro hdone
    simp [transformBroadcastItem, hlsS, hdone, hT1t, buildLiveBroadcastItemUrl, hT1, hd,
      hdt, hls, jsNum, truthyI, truthyS, hT1ne, hdne, hne]
  · intro hdone
    simp [transformBroadcastItem, hlsS, hdone, buildLoopstreamUrl, hls, hne, truthyS, hT1,
      jsNum]
  · intro done1 done2
    cases done1 <;> cases done2 <;>
      simp [transformBroadcastItem, hlsS, hT1t]

/-- Witness for the amended C4 at a concrete item and broadcast. -/
theorem url_mode_switch_witness :
    (transformBroadcastItem Db.empty sampleIRow
        (some { sampleBRow with done := false })).loopstream =
      some { id := "LS", broadcastStart := some 1000, broadcastEnd := some 2000,
             isLive := true, progressive := some (.dateRange 1500 20250101),
             hls := some (.dateRange 1500 20250101) } ∧
    (transformBroadcastItem Db.empty sampleIRow (some sampleBRow)).loopstream =
      some { id := "LS", broadcastStart := some 1000, broadcastEnd := some 2000,
             isLive := false, progressive := some (.offsetParams "LS" (1500 - 1000) 0),
             hls := some (.offsetParams "LS" (1500 - 1000) 0) } := by
  constructor
  · exact (url_mode_switch Db.empty sampleIRow { sampleBRow with done := false } "LS"
      (by decide) (by decide) 1500 (by decide) (by decide) 20250101 (by decide)
      (by decide)).1 rfl
  · exact (url_mode_switch Db.empty sampleIRow sampleBRow "LS"
      (by decide) (by decide) 1500 (by decide) (by decide) 20250101 (by decide)
      (by decide)).2.1 rfl

/-! ## C2: no duplicate items -/

/-- Distinctness of the stored `(broadcast_id, item_id)` pairs — the content of
the item-level uniqueness the engine maintains. -/
def itemPairsNodup (db : Db) : Prop :=
  (db.items.map (fun r => (r.broadcast_id, r.item_id))).Nodup

theorem nodup_of_items_eq {db db' : Db} (h : db'.items = db.items)
    (hd : itemPairsNodup db) : itemPairsNodup db' := by
  unfold itemPairsNodup at *
  rw [h]
  exact hd

theorem items_insertBroadcast_sublist (db : Db) (n : Int) (b : BParam) :
    List.Sublist (db.insertBroadcast n b).items db.items :=
  List.filter_sublist db.items

theorem nodup_of_items_sublist {db db' : Db}
    (h : List.Sublist db'.items db.items) (hd : itemPairsNodup db) :
    itemPairsNodup db' :=
  List.Nodup.sublist (h.map (fun r => (r.broadcast_id, r.item_id))) hd

theorem insertBroadcast_nodup (db : Db) (n : Int) (b : BParam)
    (h : itemPairsNodup db) : itemPairsNodup (db.insertBroadcast n b) :=
  nodup_of_items_sublist (items_insertBroadcast_sublist db n b) h

theorem items_markBroadcastAsDone (db : Db) (n i : Int) :
    (db.markBroadcastAsDone n i).items = db.items := rfl

theorem items_insertImage (db : Db) (p : ImgParam) :
    (db.insertImage p).items = db.items := by
  unfold Db.insertImage
  split <;> rfl

theorem items_addImageReference (db : Db) (t : String) (e : Int) (i : Nat) (r : String) :
    (db.addImageReference t e i r).items = db.items := by
  unfold Db.addImageReference
  split <;> rfl

theorem items_insertProgramKey (db : Db) (k : String) (t : Option String) :
    (db.insertProgramKey k t).items = db.items := rfl

theorem items_setMetadata (db : Db) (k v : String) :
    (db.setMetadata k v).items = db.items := rfl

theorem items_processAndStoreImage (E : ImgEnv) (db : Db) (u r : String) :
    (processAndStoreImage E db u r).2.items = db.items := by
  unfold processAndStoreImage
  cases hdl : E.download u with
  | error e => rfl
  | ok buf =>
    simp only
    cases hhit : db.getImageByHash (E.hashOf buf) r with
    | some img => rfl
    | none => simp [items_insertImage]

theorem items_processImageVersions (E : ImgEnv) (db : Db) (d : ImgData) :
    (processImageVersions E db d).2.items = db.items := by
  unfold processImageVersions
  cases d.versions with
  | nil => rfl
  | cons v0 rest =>
    simp only
    split
    · simp [items_processAndStoreImage]
    · simp [items_processAndStoreImage]

theorem items_processOneEntityImage (E : ImgEnv) (t : String) (e : Int) (db : Db)
    (d : ImgData) : (processOneEntityImage E t e db d).items = db.items := by
  unfold processOneEntityImage
  simp only
  split
  · split <;> simp [items_addImageReference, items_processImageVersions]
  · split
    · split <;> simp [items_addImageReference, items_processImageVersions]
    · simp [items_addImageReference, items_processImageVersions]

theorem items_foldl {β : Type} (f : Db → β → Db) (hf : ∀ db b, (f db b).items = db.items) :
    ∀ (l : List β) (db : Db), (l.foldl f db).items = db.items := by
  intro l
  induction l with
  | nil => intro db; rfl
  | cons a t ih => intro db; rw [List.foldl_cons, ih, hf]

theorem items_processEntityImages (E : ImgEnv) (t : String) (images : List ImgData)
    (e : Int) (db : Db) : (processEntityImages E t images e db).items = db.items := by
  unfold processEntityImages
  split
  · rfl
  · split
    · rfl
    · exact items_foldl _ (items_processOneEntityImage E t e) images db

theorem items_processBroadcastItemImages (E : ImgEnv) (images : List ImgData) (i : Int)
    (db : Db) : (processBroadcastItemImages E images i db).items = db.items :=
  items_processEntityImages E "broadcast_item" images i db

theorem items_processBroadcastImages (E : ImgEnv) (images : List ImgData) (i : Int)
    (db : Db) : (processBroadcastImages E images i db).items = db.items :=
  items_processEntityImages E "broadcast" images i db

theorem nodup_map_of_eq_on {α β : Type} (l : List α) (f g : α → β)
    (hfg : ∀ x ∈ l, f x = g x) (h : (l.map g).Nodup) : (l.map f).Nodup := by
  rw [List.map_congr_left hfg]
  exact h

theorem insertBroadcastItem_nodup (db : Db) (item : IParam) (broadcastId : Int)
    (h : itemPairsNodup db) : itemPairsNodup (db.insertBroadcastItem item broadcastId).2 := by
  unfold itemPairsNodup at *
  unfold Db.insertBroadcastItem
  cases hfind : db.items.find? (fun r =>
      r.broadcast_id == broadcastId && r.item_id == item.item_id) with
  | some existing =>
    simp only
    rw [List.map_map]
    apply nodup_map_of_eq_on db.items _ _ ?_ h
    intro x _
    by_cases hid : (x.rowId == existing.rowId) = true <;> simp [Function.comp, hid]
  | none =>
    simp only
    rw [List.map_append]
    have hnotmem : (broadcastId, item.item_id) ∉
        db.items.map (fun r => (r.broadcast_id, r.item_id)) := by
      intro hmem
      rcases List.mem_map.mp hmem with ⟨r, hr, hkey⟩
      have hnp := List.find?_eq_none.mp hfind r hr
      apply hnp
      have h1 : r.broadcast_id = broadcastId := congrArg Prod.fst hkey
      have h2 : r.item_id = item.item_id := congrArg Prod.snd hkey
      simp [h1, h2]
    simp only [List.map_cons, List.map_nil]
    rw [List.nodup_append]
    refine ⟨h, List.nodup_singleton _, ?_⟩
    intro a ha hb
    simp only [List.mem_singleton] at hb
    exact hnotmem (hb ▸ ha)

theorem scrapeOneItem_nodup (E : ImgEnv) (resultId : Int) (ids : List Int) (db : Db)
    (item : BItemData) (h : itemPairsNodup db) :
    itemPairsNodup (scrapeOneItem E resultId ids db item) := by
  unfold scrapeOneItem
  split
  · exact h
  · simp only
    split
    · split
      · exact insertBroadcastItem_nodup db _ resultId h
      · exact nodup_of_items_eq (items_processBroadcastItemImages _ _ _ _)
          (insertBroadcastItem_nodup db _ resultId h)
    · exact insertBroadcastItem_nodup db _ resultId h

theorem foldl_preserve {β : Type} (P : Db → Prop) (f : Db → β → Db)
    (hf : ∀ db b, P db → P (f db b)) :
    ∀ (l : List β) (db : Db), P db → P (l.foldl f db) := by
  intro l
  induction l with
  | nil => intro db hdb; exact hdb
  | cons a t ih => intro db hdb; rw [List.foldl_cons]; exact ih _ (hf db a hdb)

theorem scrapeItemsLoop_nodup (E : ImgEnv) (db : Db) (resultId : Int)
    (items : List BItemData) (h : itemPairsNodup db) :
    itemPairsNodup (scrapeItemsLoop E db resultId items) := by
  unfold scrapeItemsLoop
  exact foldl_preserve itemPairsNodup _
    (fun db item hdb => scrapeOneItem_nodup E resultId _ db item hdb) items db h

theorem ite_nodup {c : Prop} [Decidable c] {a b : Db} (ha : itemPairsNodup a)
    (hb : itemPairsNodup b) : itemPairsNodup (if c then a else b) := by
  split
  · exact ha
  · exact hb

set_option maxRecDepth 4000 in
theorem scrapeFetch_nodup (env : Env) (sc : ScraperState) (db : Db) (k : String)
    (d : Int) (h : itemPairsNodup db) : itemPairsNodup (scrapeFetch env sc db k d).db := by
  unfold scrapeFetch
  split
  · exact h
  · exact h
  · simp only []
    have hdb2 : ∀ (ttl : Option String) (P : BParam), itemPairsNodup
        ((if sc.known.contains k = true then (db, sc)
          else (db.insertProgramKey k ttl,
            { known := sc.known ++ [k], isRunning := sc.isRunning })).1.insertBroadcast
          env.nowSec P) := by
      intro ttl P
      apply insertBroadcast_nodup
      split
      · exact h
      · exact nodup_of_items_eq (items_insertProgramKey _ _ _) h
    split
    · exact hdb2 _ _
    · rw [apply_ite ScrapeOut.db]
      apply ite_nodup
      · apply nodup_of_items_eq (items_markBroadcastAsDone _ _ _)
        apply ite_nodup
        · apply ite_nodup
          · exact hdb2 _ _
          · apply nodup_of_items_eq (items_processBroadcastImages _ _ _ _)
            exact hdb2 _ _
        · apply scrapeItemsLoop_nodup
          apply ite_nodup
          · exact hdb2 _ _
          · apply nodup_of_items_eq (items_processBroadcastImages _ _ _ _)
            exact hdb2 _ _
      · apply ite_nodup
        · apply ite_nodup
          · exact hdb2 _ _
          · apply nodup_of_items_eq (items_processBroadcastImages _ _ _ _)
            exact hdb2 _ _
        · apply scrapeItemsLoop_nodup
          apply ite_nodup
          · exact hdb2 _ _
          · apply nodup_of_items_eq (items_processBroadcastImages _ _ _ _)
            exact hdb2 _ _

theorem scrapeBroadcast_nodup (env : Env) (sc : ScraperState) (db : Db) (k : String)
    (d : Int) (f : Bool) (h : itemPairsNodup db) :
    itemPairsNodup (scrapeBroadcast env sc db k d f).db := by
  unfold scrapeBroadcast
  split
  · split
    · exact h
    · split
      · exact h
      · exact scrapeFetch_nodup env sc db k d h
  · exact scrapeFetch_nodup env sc db k d h

theorem runScrapes_nodup (programKey : String) (broadcastDay : Int)
    (calls : List (Env × Bool)) :
    ∀ (sc : ScraperState) (db : Db), itemPairsNodup db →
      itemPairsNodup (runScrapes programKey broadcastDay calls (sc, db)).2 := by
  induction calls with
  | nil => intro sc db h; exact h
  | cons c cs ih =>
    intro sc db h
    rw [runScrapes_cons]
    exact ih _ _ (scrapeBroadcast_nodup c.1 sc db programKey broadcastDay c.2 h)

theorem per_broadcast_item_ids_nodup (db : Db) (h : itemPairsNodup db) (bid : Int) :
    ((db.getBroadcastItems bid).map (·.item_id)).Nodup := by
  have hsub : List.Sublist (db.getBroadcastItems bid) db.items := List.filter_sublist db.items
  have hpairs : ((db.getBroadcastItems bid).map (fun r => (r.broadcast_id, r.item_id))).Nodup :=
    List.Nodup.sublist (hsub.map _) h
  have hfst : ∀ r ∈ db.getBroadcastItems bid, r.broadcast_id = bid := by
    intro r hr
    have := (List.mem_filter.mp hr).2
    simpa using this
  have hmap : ((db.getBroadcastItems bid).map (fun r => (r.broadcast_id, r.item_id))).map
      Prod.snd = (db.getBroadcastItems bid).map (·.item_id) := by
    rw [List.map_map]
    rfl
  rw [← hmap]
  apply List.Nodup.map_on ?_ hpairs
  intro x hx y hy hxy
  have hx1 : x.1 = bid := by
    rcases List.mem_map.mp hx with ⟨rx, hrx, hkx⟩
    rw [← hkx]
    exact hfst rx hrx
  have hy1 : y.1 = bid := by
    rcases List.mem_map.mp hy with ⟨ry, hry, hky⟩
    rw [← hky]
    exact hfst ry hry
  exact Prod.ext (by rw [hx1, hy1]) hxy

/-- **C2**: starting from a store with distinct `(broadcast_id, item_id)` pairs
(e.g. the empty store), after any sequence of `scrapeBroadcast` calls for the
same `(programKey, day)` — forced or not — every broadcast's stored items have
pairwise-distinct `item_id`s: the count of stored items with distinct
`item_id` equals the total stored item count for that broadcast. -/
theorem no_duplicate_items (db : Db) (programKey : String) (broadcastDay : Int)
    (h : itemPairsNodup db) (calls : List (Env × Bool)) (sc : ScraperState) (bid : Int) :
    (((runScrapes programKey broadcastDay calls (sc, db)).2.getBroadcastItems bid).map
        (·.item_id)).dedup.length =
      ((runScrapes programKey broadcastDay calls (sc, db)).2.getBroadcastItems bid).length := by
  have hnd := per_broadcast_item_ids_nodup _
    (runScrapes_nodup programKey broadcastDay calls sc db h) bid
  rw [List.dedup_eq_self.mpr hnd, List.length_map]

/-- Sample detail item for the C2 witness. -/
def sampleDItem (n : Int) : BItemData :=
  { id := n, broadcastDay := some 20250101, programKey := some "4TV", program := none,
    type := some "M", title := some "s", interpreter := none, description := none,
    state := some "C", isOnDemand := false, isGeoProtected := false, isCompleted := true,
    duration := some 10, songId := none, isAdFree := false, start := some 1200,
    startISO := none, endT := some 1300, endISO := none, images := [] }

/-- Sample broadcast detail for the C2 witness. -/
def sampleBData : BData :=
  { id := 11, broadcastDay := 20250101, programKey := "4TV", title := some "t",
    state := some "C", start := some 1000, endT := some 2000, streams := [],
    images := [], items := [sampleDItem 1, sampleDItem 2] }

/-- Environment whose detail fetch always returns `sampleBData`. -/
def envW2 : Env := { envT with fetch := fun _ _ => .ok (some sampleBData) }

/-- Witness for C2: two forced re-scrapes of the same broadcast starting from
the empty store leave its two items with distinct ids. -/
theorem no_duplicate_items_witness :
    itemPairsNodup Db.empty ∧
    (((runScrapes "4TV" 20250101 [(envW2, true), (envW2, true)]
        ({ known := [], isRunning := false }, Db.empty)).2.getBroadcastItems 11).map
        (·.item_id)).dedup.length =
      ((runScrapes "4TV" 20250101 [(envW2, true), (envW2, true)]
        ({ known := [], isRunning := false }, Db.empty)).2.getBroadcastItems 11).length :=
  ⟨by unfold itemPairsNodup; decide,
   no_duplicate_items Db.empty "4TV" 20250101 (by unfold itemPairsNodup; decide) _ _ 11⟩

/-- Witness for C7 at a concrete store and item. -/
theorem item_offset_derivation_witness :
    ∃ r : IRow,
      ((({ Db.empty with broadcasts := [sampleBRow] }).insertBroadcastItem sampleIParam
          11).2.items.find? (fun r => r.broadcast_id == 11 && r.item_id == 77)) = some r ∧
      r.start_offset = some (1500 - 1000) ∧
      (∀ T2 : Int, sampleIParam.endT = some T2 → T2 ≠ 0 → r.end_offset = some (T2 - 1000)) := by
  exact item_offset_derivation { Db.empty with broadcasts := [sampleBRow] } 11 sampleBRow
    sampleIParam 1000 1500 (by decide) (by decide) (by decide) (by decide) (by decide)

/-! ## C10: live-item reconciliation only inserts absent items -/

theorem processLiveLoop_spec (env : Env) (sid : Int) (db0 : Db) (eids : List Int)
    (heids : eids = (db0.getBroadcastItems sid).map (·.item_id)) :
    ∀ (items : List BItemData) (dbAcc : Db) (cache : List Int) (new : List IRow),
      dbAcc.items = db0.items ++ new →
      (∀ x ∈ new, x.broadcast_id = sid ∧ x.item_id ∉ eids ∧ x.item_id ∈ cache) →
      ∃ new' : List IRow,
        (items.foldl (processOneLiveItem env sid eids) (dbAcc, cache)).1.items =
          db0.items ++ new' ∧
        ∀ x ∈ new', x.broadcast_id = sid ∧ x.item_id ∉ eids := by
  intro items
  induction items with
  | nil =>
    intro dbAcc cache new hitems hnew
    exact ⟨new, hitems, fun x hx => ⟨(hnew x hx).1, (hnew x hx).2.1⟩⟩
  | cons a t ih =>
    intro dbAcc cache new hitems hnew
    rw [List.foldl_cons]
    by_cases hc : a.id ∈ cache
    · have hstep : processOneLiveItem env sid eids (dbAcc, cache) a = (dbAcc, cache) := by
        unfold processOneLiveItem
        simp [hc]
      rw [hstep]
      exact ih dbAcc cache new hitems hnew
    · by_cases he : a.id ∈ eids
      · have hstep : processOneLiveItem env sid eids (dbAcc, cache) a =
            (dbAcc, cache ++ [a.id]) := by
          unfold processOneLiveItem
          simp [hc, he]
        rw [hstep]
        apply ih dbAcc (cache ++ [a.id]) new hitems
        intro x hx
        exact ⟨(hnew x hx).1, (hnew x hx).2.1, List.mem_append_left _ (hnew x hx).2.2⟩
      · have hfind : dbAcc.items.find? (fun r =>
            r.broadcast_id == sid && r.item_id == (liveItemRecordOf a).item_id) = none := by
          apply List.find?_eq_none.mpr
          intro r hr hp
          simp only [Bool.and_eq_true, beq_iff_eq] at hp
          have hrid : r.item_id = a.id := hp.2
          rw [hitems] at hr
          rcases List.mem_append.mp hr with hr0 | hrn
          · apply he
            rw [heids]
            apply List.mem_map.mpr
            refine ⟨r, ?_, hrid⟩
            unfold Db.getBroadcastItems
            apply List.mem_filter.mpr
            exact ⟨hr0, by simp [hp.1]⟩
          · apply hc
            rw [← hrid]
            exact (hnew r hrn).2.2
        have hins : ∃ nr : IRow,
            (dbAcc.insertBroadcastItem (liveItemRecordOf a) sid).2.items =
              dbAcc.items ++ [nr] ∧ nr.broadcast_id = sid ∧ nr.item_id = a.id := by
          unfold Db.insertBroadcastItem
          simp only []
          rw [hfind]
          exact ⟨_, rfl, rfl, rfl⟩
        rcases hins with ⟨nr, hnr, hnr1, hnr2⟩
        have hstep : processOneLiveItem env sid eids (dbAcc, cache) a =
            (if a.images.isEmpty then
               (dbAcc.insertBroadcastItem (liveItemRecordOf a) sid).2
             else processBroadcastItemImages env.img a.images
               (((dbAcc.insertBroadcastItem (liveItemRecordOf a) sid).1 : Nat) : Int)
               (dbAcc.insertBroadcastItem (liveItemRecordOf a) sid).2,
             cache ++ [a.id]) := by
          unfold processOneLiveItem
          simp [hc, he]
        rw [hstep]
        have hdb2items : (if a.images.isEmpty then
               (dbAcc.insertBroadcastItem (liveItemRecordOf a) sid).2
             else processBroadcastItemImages env.img a.images
               (((dbAcc.insertBroadcastItem (liveItemRecordOf a) sid).1 : Nat) : Int)
               (dbAcc.insertBroadcastItem (liveItemRecordOf a) sid).2).items =
            db0.items ++ (new ++ [nr]) := by
          have hbase : (dbAcc.insertBroadcastItem (liveItemRecordOf a) sid).2.items =
              db0.items ++ (new ++ [nr]) := by
            rw [hnr, hitems, List.append_assoc]
          split
          · exact hbase
          · rw [items_processBroadcastItemImages]
            exact hbase
        apply ih _ (cache ++ [a.id]) (new ++ [nr]) hdb2items
        intro x hx
        rcases List.mem_append.mp hx with hx1 | hx2
        · have hx' := hnew x hx1
          exact ⟨hx'.1, hx'.2.1, List.mem_append_left _ hx'.2.2⟩
        · simp only [List.mem_singleton] at hx2
          subst hx2
          refine ⟨hnr1, ?_, ?_⟩
          · rw [hnr2]
            exact he
          · rw [hnr2]
            exact List.mem_append_right _ (List.mem_singleton.mpr rfl)

/-- **C10**: the live-view item reconciliation `processLiveItems` only ever
inserts items whose `item_id` is absent from the store for that broadcast:
the stored item table after the call is the table before the call plus
appended fresh rows — every previously stored row is unchanged, none is
deleted, and every appended row belongs to this broadcast and carries an
`item_id` that was not stored for it before the call. -/
theorem processLiveItems_only_inserts_new (env : Env) (ms : MonState) (broadcast : LiveB)
    (storedBroadcastId : Int) (db : Db) :
    ∃ new : List IRow,
      (processLiveItems env ms broadcast storedBroadcastId db).1.items = db.items ++ new ∧
      ∀ x ∈ new, x.broadcast_id = storedBroadcastId ∧
        x.item_id ∉ (db.getBroadcastItems storedBroadcastId).map (·.item_id) := by
  unfold processLiveItems
  split
  · exact ⟨[], by simp, by simp⟩
  · simp only []
    exact processLiveLoop_spec env storedBroadcastId db _ rfl broadcast.items db
      ((mapGet? ms.processedItems broadcast.id).getD []) [] (by simp) (by simp)

/-! ## C5: backfill completeness -/

/-- Day-collection component of one rolling-list step (the `daysInBroadcasts`
set updates of phase two). -/
def daysStep (s : List Int) (dayData : DayData) : List Int :=
  match dayData.day with
  | some day => if day != 0 then setAdd s day else s
  | none => s

/-- The distinct truthy days the rolling list covers, in list order. -/
def listedDays (broadcastsData : List DayData) : List Int :=
  broadcastsData.foldl daysStep []

theorem listPhaseStep_days (env : Env) (acc : List Int × Db × ScraperState)
    (d : DayData) : (listPhaseStep env acc d).1 = daysStep acc.1 d := by
  unfold listPhaseStep daysStep
  cases d.day with
  | none => rfl
  | some day =>
    simp only
    split <;> rfl

theorem listPhase_days (env : Env) :
    ∀ (data : List DayData) (acc : List Int × Db × ScraperState),
      (data.foldl (listPhaseStep env) acc).1 = data.foldl daysStep acc.1 := by
  intro data
  induction data with
  | nil => intro acc; rfl
  | cons d t ih =>
    intro acc
    rw [List.foldl_cons, List.foldl_cons, ih, listPhaseStep_days]

theorem scrapeFetch_sc_of_known (env : Env) (sc : ScraperState) (db : Db) (k : String)
    (d : Int) (h : k ∈ sc.known) : (scrapeFetch env sc db k d).sc = sc := by
  unfold scrapeFetch
  have hcontains : sc.known.contains k = true := List.elem_iff.mpr h
  split
  · rfl
  · rfl
  · simp only []
    rw [if_pos hcontains]
    split
    · rfl
    · split <;> rfl

theorem scrapeBroadcast_sc_of_known (env : Env) (sc : ScraperState) (db : Db)
    (k : String) (d : Int) (f : Bool) (h : k ∈ sc.known) :
    (scrapeBroadcast env sc db k d f).sc = sc := by
  unfold scrapeBroadcast
  split
  · split
    · rfl
    · split
      · rfl
      · exact scrapeFetch_sc_of_known env sc db k d h
  · exact scrapeFetch_sc_of_known env sc db k d h

theorem scrapeSummaryFold_sc (env : Env) (day : Int) :
    ∀ (bs : List SummaryB) (a : Db × ScraperState),
      (∀ b ∈ bs, b.programKey ∈ a.2.known) →
      (bs.foldl (scrapeSummaryOne env day) a).2 = a.2 := by
  intro bs
  induction bs with
  | nil => intro a _; rfl
  | cons b t ih =>
    intro a hmem
    rw [List.foldl_cons]
    have hstep : (scrapeSummaryOne env day a b).2 = a.2 :=
      scrapeBroadcast_sc_of_known env a.2 a.1 b.programKey day false
        (hmem b (List.mem_cons_self b t))
    rw [ih _ (by rw [hstep]; exact fun x hx => hmem x (List.mem_cons_of_mem b hx)), hstep]

theorem listPhase_sc (env : Env) :
    ∀ (data : List DayData) (acc : List Int × Db × ScraperState),
      (∀ d ∈ data, ∀ b ∈ d.broadcasts, b.programKey ∈ acc.2.2.known) →
      (data.foldl (listPhaseStep env) acc).2.2 = acc.2.2 := by
  intro data
  induction data with
  | nil => intro acc _; rfl
  | cons d t ih =>
    intro acc hmem
    rw [List.foldl_cons]
    have hstep : (listPhaseStep env acc d).2.2 = acc.2.2 := by
      unfold listPhaseStep
      cases d.day with
      | none => rfl
      | some day =>
        simp only
        split
        · exact scrapeSummaryFold_sc env day d.broadcasts (acc.2.1, acc.2.2)
            (hmem d (List.mem_cons_self d t))
        · rfl
    rw [ih _ (by rw [hstep]; exact fun x hx => hmem x (List.mem_cons_of_mem d hx)), hstep]

theorem discoverOne_id (acc : Db × ScraperState) (b : SummaryB)
    (h : b.programKey ∈ acc.2.known) : discoverOne acc b = acc := by
  unfold discoverOne
  rw [if_neg]
  simp only [Bool.and_eq_true, not_and]
  intro _
  simp
  exact h

theorem discoverFold_id :
    ∀ (bs : List SummaryB) (acc : Db × ScraperState),
      (∀ b ∈ bs, b.programKey ∈ acc.2.known) → bs.foldl discoverOne acc = acc := by
  intro bs
  induction bs with
  | nil => intro acc _; rfl
  | cons b t ih =>
    intro acc hmem
    rw [List.foldl_cons, discoverOne_id acc b (hmem b (List.mem_cons_self b t))]
    exact ih acc (fun x hx => hmem x (List.mem_cons_of_mem b hx))

theorem discoverProgramKeys_id (env : Env) (listData : List DayData)
    (hd : env.broadcastsList = .ok listData) (sc : ScraperState) (db : Db)
    (h : ∀ d ∈ listData, ∀ b ∈ d.broadcasts, b.programKey ∈ sc.known) :
    discoverProgramKeys env sc db = (db, sc) := by
  unfold discoverProgramKeys
  rw [hd]
  simp only
  have haux : ∀ (data : List DayData) (acc : Db × ScraperState),
      (∀ d ∈ data, ∀ b ∈ d.broadcasts, b.programKey ∈ acc.2.known) →
      data.foldl discoverDay acc = acc := by
    intro data
    induction data with
    | nil => intro acc _; rfl
    | cons d t ih =>
      intro acc hmem
      rw [List.foldl_cons]
      have hstep : discoverDay acc d = acc :=
        discoverFold_id d.broadcasts acc (hmem d (List.mem_cons_self d t))
      rw [hstep]
      exact ih acc (fun x hx => hmem x (List.mem_cons_of_mem d hx))
  exact haux listData (db, sc) h

theorem probeFold_log (env : Env) (day : Int) :
    ∀ (ks : List String) (acc : Db × ScraperState × List (String × Int)),
      (ks.foldl (probeOneKey env day) acc).2.2 =
        acc.2.2 ++ ks.map (fun k => (k, day)) := by
  intro ks
  induction ks with
  | nil => intro acc; simp
  | cons k t ih =>
    intro acc
    rw [List.foldl_cons, ih]
    unfold probeOneKey
    simp

theorem backfillFold_probes (env : Env) (daysSet : List Int) (keys : List String)
    (startOffset : Int) :
    ∀ (ns : List Nat) (acc : Db × ScraperState × List (String × Int)),
      (∀ i ∈ ns, (env.today - (startOffset + (i : Int) + 1)) ∉ daysSet) →
      (ns.foldl (backfillDay env daysSet keys startOffset) acc).2.2 =
        acc.2.2 ++ ns.bind (fun i =>
          keys.map (fun k => (k, env.today - (startOffset + (i : Int) + 1)))) := by
  intro ns
  induction ns with
  | nil => intro acc _; simp
  | cons i t ih =>
    intro acc hmem
    rw [List.foldl_cons]
    have hstep : backfillDay env daysSet keys startOffset acc i =
        keys.foldl (probeOneKey env (env.today - (startOffset + (i : Int) + 1))) acc := by
      unfold backfillDay
      simp only []
      rw [if_neg]
      simp [hmem i (List.mem_cons_self i t)]
    rw [hstep, ih _ (fun x hx => hmem x (List.mem_cons_of_mem i hx)), probeFold_log]
    simp [List.append_assoc]

theorem backfillWalk_probes (env : Env) (daysSet : List Int) (keys : List String)
    (startOffset : Int) (n : Nat) (db : Db) (sc : ScraperState)
    (h : ∀ i : Nat, i < n → (env.today - (startOffset + (i : Int) + 1)) ∉ daysSet) :
    (backfillWalk env daysSet keys startOffset n db sc).2.2 =
      (List.range n).bind (fun i =>
        keys.map (fun k => (k, env.today - (startOffset + (i : Int) + 1)))) := by
  unfold backfillWalk
  rw [backfillFold_probes env daysSet keys startOffset (List.range n) (db, sc, [])
    (fun i hi => h i (List.mem_range.mp hi))]
  simp

theorem foldl_min_le_init : ∀ (t : List Int) (acc : Int), t.foldl min acc ≤ acc := by
  intro t
  induction t with
  | nil => intro acc; exact le_refl acc
  | cons a t ih =>
    intro acc
    rw [List.foldl_cons]
    exact le_trans (ih (min acc a)) (min_le_left acc a)

theorem foldl_min_le_mem : ∀ (t : List Int) (acc d : Int), d ∈ t → t.foldl min acc ≤ d := by
  intro t
  induction t with
  | nil => intro acc d hd; cases hd
  | cons a t ih =>
    intro acc d hd
    rw [List.foldl_cons]
    rcases List.mem_cons.mp hd with rfl | hdt
    · exact le_trans (foldl_min_le_init t (min acc d)) (min_le_right acc d)
    · exact ih (min acc a) d hdt

theorem minList_le (s : List Int) (d : Int) (h : d ∈ s) : minList s ≤ d := by
  cases s with
  | nil => cases h
  | cons a t =>
    unfold minList
    rcases List.mem_cons.mp h with rfl | hdt
    · rw [List.foldl_cons]
      exact le_trans (foldl_min_le_init t (min (List.headD (d :: t) 0) d))
        (min_le_right _ d)
    · rw [List.foldl_cons]
      exact foldl_min_le_mem t _ d hdt

theorem foldl_min_mem_or : ∀ (t : List Int) (acc : Int),
    t.foldl min acc = acc ∨ t.foldl min acc ∈ t := by
  intro t
  induction t with
  | nil => intro acc; exact Or.inl rfl
  | cons a t ih =>
    intro acc
    rw [List.foldl_cons]
    rcases ih (min acc a) with heq | hmem
    · rw [heq]
      rcases min_choice acc a with h | h
      · exact Or.inl h
      · exact Or.inr (by rw [h]; exact List.mem_cons_self a t)
    · exact Or.inr (List.mem_cons_of_mem a hmem)

theorem minList_mem (s : List Int) (h : s ≠ []) : minList s ∈ s := by
  cases s with
  | nil => exact absurd rfl h
  | cons a t =>
    unfold minList
    rw [List.foldl_cons]
    rcases foldl_min_mem_or t (min (List.headD (a :: t) 0) a) with heq | hmem
    · rw [heq]
      simp only [List.headD, min_self]
      exact List.mem_cons_self a t
    · exact List.mem_cons_of_mem a hmem

/-- **C5**: with the scraper idle, an empty live view, and a rolling list
covering a nonempty set of past days whose entries all name known program
keys, `scrapeHistoricalBroadcasts(daysBack)` probes — beyond what the list
itself names — exactly `max 0 (daysBack − coveredDays)` additional calendar
days, scraping every known program key for each, walking backward
day-by-day starting from the day just beyond the list's oldest covered day. -/
theorem backfill_completeness (env : Env) (sc : ScraperState) (db : Db) (daysBack : Int)
    (listData : List DayData)
    (hrun : sc.isRunning = false)
    (hlive : env.live = .ok [])
    (hlist : env.broadcastsList = .ok listData)
    (hkeys : ∀ dayData ∈ listData, ∀ b ∈ dayData.broadcasts, b.programKey ∈ sc.known)
    (hne : listedDays listData ≠ [])
    (hpos : ∀ day ∈ listedDays listData, 0 < day)
    (htoday : ∀ day ∈ listedDays listData, day ≤ env.today) :
    (scrapeHistoricalBroadcasts env sc db daysBack).probes =
      (List.range (max 0 (daysBack - ((listedDays listData).length : Int))).toNat).bind
        (fun i => sc.known.map (fun k =>
          (k, minList (listedDays listData) - 1 - (i : Int)))) := by
  have hmmem : minList (listedDays listData) ∈ listedDays listData := minList_mem _ hne
  have hmpos : 0 < minList (listedDays listData) := hpos _ hmmem
  have hmle : minList (listedDays listData) ≤ env.today := htoday _ hmmem
  unfold scrapeHistoricalBroadcasts
  rw [if_neg (by simp [hrun])]
  rw [hlive]
  simp only [List.foldl_nil]
  rw [hlist]
  simp only []
  rw [discoverProgramKeys_id env listData hlist { sc with isRunning := true } db hkeys]
  simp only []
  rw [listPhase_days env listData ([], db, { sc with isRunning := true }),
    listPhase_sc env listData ([], db, { sc with isRunning := true }) hkeys]
  have hlisted : listData.foldl daysStep [] = listedDays listData := rfl
  rw [hlisted]
  rw [if_neg (show ¬((listedDays listData).isEmpty = true) by simp [hne])]
  have htr : truthyI (some (minList (listedDays listData))) = true := by
    simp only [truthyI, bne_iff_ne]
    omega
  rw [if_pos htr]
  have hgd : getDaysDifference (jsNum (some (minList (listedDays listData)))) env.today =
      env.today - minList (listedDays listData) := by
    unfold getDaysDifference jsNum
    simp only [Option.getD_some]
    exact Int.natAbs_of_nonneg (by omega)
  rw [hgd]
  by_cases hadd : max 0 (daysBack - ((listedDays listData).length : Int)) > 0
  · rw [if_pos hadd]
    simp only []
    rw [backfillWalk_probes env (listedDays listData) sc.known
      (env.today - minList (listedDays listData)) _ _ _ ?hskip]
    case hskip =>
      intro i _ hmem'
      have := minList_le (listedDays listData) _ hmem'
      omega
    have harith : ∀ i : Nat,
        env.today - (env.today - minList (listedDays listData) + (i : Int) + 1) =
          minList (listedDays listData) - 1 - (i : Int) := by
      intro i
      omega
    simp only [harith]
  · rw [if_neg hadd]
    simp only []
    have h1 : (0 : Int) ≤ max 0 (daysBack - ((listedDays listData).length : Int)) :=
      le_max_left _ _
    have h2 : max 0 (daysBack - ((listedDays listData).length : Int)) = 0 :=
      le_antisymm (not_lt.mp hadd) h1
    rw [h2]
    simp

/-! ## C8: monitored-item transitions of the live tick -/

theorem find?_map_none {α : Type} (p : α → Bool) (u : α → α)
    (hpu : ∀ a, p (u a) = p a) :
    ∀ l : List α, l.find? p = none → (l.map u).find? p = none := by
  intro l
  induction l with
  | nil => intro _; rfl
  | cons a t ih =>
    intro h
    by_cases hpa : p a = true
    · rw [List.find?_cons_of_pos _ hpa] at h
      cases h
    · rw [List.find?_cons_of_neg _ hpa] at h
      rw [List.map_cons, List.find?_cons_of_neg _ (by rw [hpu a]; exact hpa)]
      exact ih h

theorem find?_filter_of_imp {α : Type} (p q : α → Bool)
    (himp : ∀ a, p a = true → q a = true) :
    ∀ l : List α, (l.filter q).find? p = l.find? p := by
  intro l
  induction l with
  | nil => rfl
  | cons a t ih =>
    by_cases hqa : q a = true
    · rw [List.filter_cons_of_pos hqa]
      by_cases hpa : p a = true
      · rw [List.find?_cons_of_pos _ hpa, List.find?_cons_of_pos _ hpa]
      · rw [List.find?_cons_of_neg _ hpa, List.find?_cons_of_neg _ hpa]
        exact ih
    · rw [List.filter_cons_of_neg hqa]
      have hpa : ¬p a = true := fun hp => hqa (himp a hp)
      rw [List.find?_cons_of_neg _ hpa]
      exact ih

theorem mapGet?_set_self {α : Type} (m : List (Int × α)) (k : Int) (v : α) :
    mapGet? (mapSet m k v) k = some v := by
  unfold mapGet? mapSet
  split
  · rename_i hany
    cases hfind : m.find? (fun p => p.1 == k) with
    | none =>
      rcases List.any_eq_true.mp hany with ⟨p0, hp0, hp0k⟩
      have := List.find?_eq_none.mp hfind p0 hp0
      exact absurd hp0k this
    | some e =>
      have hkey := List.find?_some hfind
      simp only [] at hkey
      have hmap := find?_map_invariant (fun p => p.1 == k)
        (fun p => if p.1 == k then (k, v) else p)
        (fun a => by by_cases ha : (a.1 == k) = true <;> simp [ha]) m e hfind
      rw [hmap]
      simp [hkey]
  · rename_i hany
    have hfind : m.find? (fun p => p.1 == k) = none := by
      apply List.find?_eq_none.mpr
      intro x hx hpx
      exact hany (List.any_eq_true.mpr ⟨x, hx, hpx⟩)
    rw [List.find?_append, hfind]
    simp

theorem mapGet?_set_ne {α : Type} (m : List (Int × α)) (k' : Int) (v : α) (k : Int)
    (hne : k' ≠ k) : mapGet? (mapSet m k' v) k = mapGet? m k := by
  have hpu : ∀ a : Int × α,
      ((if a.1 == k' then (k', v) else a).1 == k) = (a.1 == k) := by
    intro a
    by_cases ha : (a.1 == k') = true
    · have : a.1 = k' := by simpa using ha
      simp [ha, this, hne]
    · simp [ha]
  unfold mapGet? mapSet
  split
  · cases hfind : m.find? (fun p => p.1 == k) with
    | none =>
      rw [find?_map_none (fun p => p.1 == k) _ hpu m hfind]
    | some e =>
      rw [find?_map_invariant (fun p => p.1 == k) _ hpu m e hfind]
      have hkey := List.find?_some hfind
      simp only [] at hkey
      have hk : e.1 = k := by simpa using hkey
      have hne' : (e.1 == k') = false := by
        simp [hk]
        omega
      simp [hne']
  · rw [List.find?_append]
    have : List.find? (fun p => p.1 == k) [(k', v)] = none := by
      simp [hne]
    rw [this]
    cases m.find? (fun p => p.1 == k) <;> rfl

theorem mapGet?_delete_ne {α : Type} (m : List (Int × α)) (k' k : Int)
    (hne : k' ≠ k) : mapGet? (mapDelete m k') k = mapGet? m k := by
  have himp : ∀ a : Int × α, (a.1 == k) = true → (a.1 != k') = true := by
    intro a ha
    have hk : a.1 = k := by simpa using ha
    simp [hk]
    omega
  unfold mapGet? mapDelete
  rw [find?_filter_of_imp (fun p => p.1 == k) (fun p => p.1 != k') himp m]

theorem mapHas_eq_isSome {α : Type} (m : List (Int × α)) (k : Int) :
    mapHas m k = (mapGet? m k).isSome := by
  unfold mapHas mapGet?
  cases hfind : m.find? (fun p => p.1 == k) with
  | none =>
    simp only [Option.map_none', Option.isSome_none]
    rw [List.any_eq_false]
    intro x hx
    exact List.find?_eq_none.mp hfind x hx
  | some e =>
    simp only [Option.map_some', Option.isSome_some]
    have hpe := List.find?_some hfind
    exact List.any_eq_true.mpr ⟨e, List.mem_of_find?_eq_some hfind, hpe⟩

theorem mapHas_delete_self {α : Type} (m : List (Int × α)) (k : Int) :
    mapHas (mapDelete m k) k = false := by
  unfold mapHas mapDelete
  rw [List.any_eq_false]
  intro x hx
  have := (List.mem_filter.mp hx).2
  simp only [bne_iff_ne] at this
  simp [this]

theorem mem_of_mapGet? {α : Type} (m : List (Int × α)) (k : Int) (v : α)
    (h : mapGet? m k = some v) : (k, v) ∈ m := by
  unfold mapGet? at h
  cases hfind : m.find? (fun p => p.1 == k) with
  | none => rw [hfind] at h; cases h
  | some e =>
    rw [hfind] at h
    simp only [Option.map_some'] at h
    injection h with h
    have hmem := List.mem_of_find?_eq_some hfind
    have hkey : e.1 = k := by simpa using (List.find?_some hfind)
    have : e = (k, v) := Prod.ext hkey h
    rw [← this]
    exact hmem

theorem mapHas_set_self {α : Type} (m : List (Int × α)) (k : Int) (v : α) :
    mapHas (mapSet m k v) k = true := by
  rw [mapHas_eq_isSome, mapGet?_set_self]
  rfl

theorem mapHas_delete_ne {α : Type} (m : List (Int × α)) (k' k : Int)
    (hne : k' ≠ k) : mapHas (mapDelete m k') k = mapHas m k := by
  rw [mapHas_eq_isSome, mapHas_eq_isSome, mapGet?_delete_ne m k' k hne]

theorem sweepOne_ms (env : Env) (t : TickSt) (e : Int × MonI) :
    (sweepOne env t e).ms = t.ms := by
  unfold sweepOne
  split <;> rfl

theorem sweepFold_ms (env : Env) :
    ∀ (l : List (Int × MonI)) (t : TickSt), (l.foldl (sweepOne env) t).ms = t.ms := by
  intro l
  induction l with
  | nil => intro t; rfl
  | cons a rest ih =>
    intro t
    rw [List.foldl_cons, ih, sweepOne_ms]

theorem sweepOne_calls (env : Env) (t : TickSt) (e : Int × MonI) :
    ∃ ext, (sweepOne env t e).calls = t.calls ++ ext := by
  unfold sweepOne
  split
  · exact ⟨[(e.2.programKey, e.2.broadcastDay)], rfl⟩
  · exact ⟨[], (List.append_nil _).symm⟩

theorem sweepFold_calls (env : Env) :
    ∀ (l : List (Int × MonI)) (t : TickSt) (c : String × Int),
      c ∈ t.calls → c ∈ (l.foldl (sweepOne env) t).calls := by
  intro l
  induction l with
  | nil => intro t c hc; exact hc
  | cons a rest ih =>
    intro t c hc
    rw [List.foldl_cons]
    apply ih
    obtain ⟨ext, hext⟩ := sweepOne_calls env t a
    rw [hext]
    exact List.mem_append_left _ hc

theorem sweepFold_hit (env : Env) :
    ∀ (l : List (Int × MonI)) (t : TickSt) (e : Int × MonI),
      e ∈ l → env.nowMs ≥ jsNum e.2.endTime →
      (e.2.programKey, e.2.broadcastDay) ∈ (l.foldl (sweepOne env) t).calls := by
  intro l
  induction l with
  | nil => intro t e he; cases he
  | cons a rest ih =>
    intro t e he hend
    rw [List.foldl_cons]
    rcases List.mem_cons.mp he with rfl | hmem
    · apply sweepFold_calls
      show _ ∈ (sweepOne env t e).calls
      unfold sweepOne
      rw [if_pos hend]
      simp
    · exact ih _ e hmem hend

theorem tickSweep_ms (env : Env) (t : TickSt) : (tickSweep env t).ms = t.ms :=
  sweepFold_ms env t.ms.monitoredItems t

theorem processLiveItems_monItems (env : Env) (ms : MonState) (b : LiveB)
    (sid : Int) (db : Db) :
    (processLiveItems env ms b sid db).2.monitoredItems = ms.monitoredItems := by
  unfold processLiveItems
  split <;> rfl

theorem monitorOneItem_get_ne (env : Env) (b : LiveB) (t : TickSt) (item : BItemData)
    (id : Int) (hne : item.id ≠ id) :
    mapGet? (monitorOneItem env b t item).ms.monitoredItems id =
      mapGet? t.ms.monitoredItems id := by
  unfold monitorOneItem
  simp only []
  split
  · exact mapGet?_set_ne t.ms.monitoredItems item.id _ id hne
  · split
    · exact mapGet?_delete_ne t.ms.monitoredItems item.id id hne
    · rfl

theorem monitorFold_get_ne (env : Env) (b : LiveB) :
    ∀ (items : List BItemData) (t : TickSt) (id : Int),
      (∀ item ∈ items, item.id ≠ id) →
      mapGet? (items.foldl (monitorOneItem env b) t).ms.monitoredItems id =
        mapGet? t.ms.monitoredItems id := by
  intro items
  induction items with
  | nil => intro t id _; rfl
  | cons a rest ih =>
    intro t id h
    rw [List.foldl_cons, ih _ id (fun item hm => h item (List.mem_cons_of_mem a hm)),
      monitorOneItem_get_ne env b t a id (h a (List.mem_cons_self a rest))]

theorem monitorFold_has_ne (env : Env) (b : LiveB) (items : List BItemData)
    (t : TickSt) (id : Int) (h : ∀ item ∈ items, item.id ≠ id) :
    mapHas (items.foldl (monitorOneItem env b) t).ms.monitoredItems id =
      mapHas t.ms.monitoredItems id := by
  rw [mapHas_eq_isSome, mapHas_eq_isSome, monitorFold_get_ne env b items t id h]

theorem monitorOneItem_calls (env : Env) (b : LiveB) (t : TickSt) (item : BItemData) :
    ∃ ext, (monitorOneItem env b t item).calls = t.calls ++ ext := by
  unfold monitorOneItem
  simp only []
  split
  · exact ⟨[], (List.append_nil _).symm⟩
  · split
    · exact ⟨[(b.programKey, b.broadcastDay)], rfl⟩
    · exact ⟨[], (List.append_nil _).symm⟩

theorem monitorFold_calls (env : Env) (b : LiveB) :
    ∀ (items : List BItemData) (t : TickSt) (c : String × Int),
      c ∈ t.calls → c ∈ (items.foldl (monitorOneItem env b) t).calls := by
  intro items
  induction items with
  | nil => intro t c hc; exact hc
  | cons a rest ih =>
    intro t c hc
    rw [List.foldl_cons]
    apply ih
    obtain ⟨ext, hext⟩ := monitorOneItem_calls env b t a
    rw [hext]
    exact List.mem_append_left _ hc

theorem monitorFold_enter (env : Env) (b : LiveB) :
    ∀ (items : List BItemData) (t : TickSt) (item : BItemData),
      item ∈ items → (items.map (fun i => i.id)).Nodup →
      item.isCompleted = false →
      (item.state = some "S" ∨ item.state = some "P") →
      mapHas (items.foldl (monitorOneItem env b) t).ms.monitoredItems item.id = true := by
  intro items
  induction items with
  | nil => intro t item hm; cases hm
  | cons a rest ih =>
    intro t item hm hnd hcomp hstate
    rw [List.map_cons, List.nodup_cons] at hnd
    rw [List.foldl_cons]
    rcases List.mem_cons.mp hm with rfl | hmem
    · have hrest : ∀ i ∈ rest, i.id ≠ item.id := by
        intro i hi hcontra
        exact hnd.1 (hcontra ▸ List.mem_map_of_mem (fun x => x.id) hi)
      rw [monitorFold_has_ne env b rest _ item.id hrest]
      have hq : (!item.isCompleted &&
          (item.state == some "S" || item.state == some "P")) = true := by
        rcases hstate with hs | hs <;> simp [hcomp, hs]
      show mapHas (monitorOneItem env b t item).ms.monitoredItems item.id = true
      unfold monitorOneItem
      simp only []
      rw [if_pos hq]
      exact mapHas_set_self t.ms.monitoredItems item.id _
    · exact ih _ item hmem hnd.2 hcomp hstate

theorem monitorFold_leave (env : Env) (b : LiveB) :
    ∀ (items : List BItemData) (t : TickSt) (item : BItemData),
      item ∈ items → (items.map (fun i => i.id)).Nodup →
      (!item.isCompleted && (item.state == some "S" || item.state == some "P")) = false →
      mapHas t.ms.monitoredItems item.id = true →
      mapHas (items.foldl (monitorOneItem env b) t).ms.monitoredItems item.id = false ∧
      (b.programKey, b.broadcastDay) ∈ (items.foldl (monitorOneItem env b) t).calls := by
  intro items
  induction items with
  | nil => intro t item hm; cases hm
  | cons a rest ih =>
    intro t item hm hnd hq hhas
    rw [List.map_cons, List.nodup_cons] at hnd
    rw [List.foldl_cons]
    rcases List.mem_cons.mp hm with rfl | hmem
    · have hrest : ∀ i ∈ rest, i.id ≠ item.id := by
        intro i hi hcontra
        exact hnd.1 (hcontra ▸ List.mem_map_of_mem (fun x => x.id) hi)
      have hstep : monitorOneItem env b t item =
          { ms := { t.ms with
              monitoredItems := mapDelete t.ms.monitoredItems item.id },
            db := (scrapeBroadcast env t.sc t.db b.programKey b.broadcastDay true).db,
            sc := (scrapeBroadcast env t.sc t.db b.programKey b.broadcastDay true).sc,
            calls := t.calls ++ [(b.programKey, b.broadcastDay)] } := by
        unfold monitorOneItem
        simp only []
        rw [if_neg (show ¬((!item.isCompleted &&
          (item.state == some "S" || item.state == some "P")) = true) by simp [hq]),
          if_pos hhas]
      constructor
      · rw [monitorFold_has_ne env b rest _ item.id hrest, hstep]
        exact mapHas_delete_self t.ms.monitoredItems item.id
      · apply monitorFold_calls
        rw [hstep]
        exact List.mem_append_right _ (List.mem_singleton.mpr rfl)
    · have hane : a.id ≠ item.id := by
        intro hcontra
        exact hnd.1 (hcontra ▸ List.mem_map_of_mem (fun x => x.id) hmem)
      have hhas' : mapHas (monitorOneItem env b t a).ms.monitoredItems item.id = true := by
        rw [mapHas_eq_isSome, monitorOneItem_get_ne env b t a item.id hane,
          ← mapHas_eq_isSome]
        exact hhas
      exact ih _ item hmem hnd.2 hq hhas'

theorem tickBroadcast_decomp (env : Env) (t : TickSt) (b : LiveB) :
    ∃ t1 : TickSt, tickBroadcast env t b = b.items.foldl (monitorOneItem env b) t1 ∧
      t1.ms.monitoredItems = t.ms.monitoredItems ∧
      ∃ ext, t1.calls = t.calls ++ ext := by
  unfold tickBroadcast
  simp only []
  refine ⟨_, rfl, ?_, ?_⟩
  · split
    · split
      · exact processLiveItems_monItems env t.ms b _ _
      · rfl
    · rfl
  · split
    · exact ⟨[(b.programKey, b.broadcastDay)], rfl⟩
    · split
      · split
        · exact ⟨[(b.programKey, b.broadcastDay)], rfl⟩
        · exact ⟨[], (List.append_nil _).symm⟩
      · exact ⟨[], (List.append_nil _).symm⟩

/-- Rolling-list data for the C5 witness: six covered days, no listed
broadcasts. -/
def listDataW5 : List DayData :=
  [{ day := some 100, broadcasts := [] }, { day := some 101, broadcasts := [] },
   { day := some 102, broadcasts := [] }, { day := some 103, broadcasts := [] },
   { day := some 104, broadcasts := [] }, { day := some 105, broadcasts := [] }]

/-- Environment for the C5 witness. -/
def envW5 : Env :=
  { envT with live := .ok [], broadcastsList := .ok listDataW5, today := 110 }

/-- Witness for C5: `daysBack = 10` with six covered days probes exactly four
additional days for each of the two known program keys. -/
theorem backfill_completeness_witness :
    (scrapeHistoricalBroadcasts envW5 { known := ["4TV", "4SS"], isRunning := false }
        Db.empty 10).probes =
      (List.range (max 0 (10 - ((listedDays listDataW5).length : Int))).toNat).bind
        (fun i => (["4TV", "4SS"] : List String).map (fun k =>
          (k, minList (listedDays listDataW5) - 1 - (i : Int)))) :=
  backfill_completeness envW5 { known := ["4TV", "4SS"], isRunning := false } Db.empty 10
    listDataW5 rfl rfl rfl (by decide) (by decide) (by decide) (by decide)

/-- Monitor state for the C8 counterexample: one monitored item whose expected
end time (50) is already in the past. -/
def msC8 : MonState :=
  { monitoredBroadcasts := [], processedItems := [],
    monitoredItems :=
      [(7, { broadcastId := 1, programKey := "4SS", broadcastDay := 100,
             endTime := some 50, state := "P" })] }

/-- Environment for the C8 counterexample: the live view holds one completed
broadcast with no items, every detail fetch yields no payload, and the clock
(60) is past the monitored item's end time. -/
def envC8 : Env :=
  { envT with
    live :=
      .ok [{ id := 2, programKey := "4XX", broadcastDay := 100,
             state := "C", items := [] }],
    fetch := fun _ _ => .ok none, nowMs := 60 }

/-- Counterexample to C8 as stated: wall-clock time has passed the monitored
item's expected end time and no completion signal arrived, yet after the tick
the item is still in the monitored set — the sweep triggers the parent
re-fetch but deliberately keeps the item monitored. -/
theorem live_monitor_timeout_counterexample :
    mapHas (checkLiveAndUpdate envC8 msC8 Db.empty
      { known := [], isRunning := false }).ms.monitoredItems 7 = true ∧
    (checkLiveAndUpdate envC8 msC8 Db.empty
      { known := [], isRunning := false }).calls = [("4SS", 100)] :=
  ⟨rfl, rfl⟩

/-- **C8 (amended).** Over one `checkLiveAndUpdate` tick whose live view holds a
single broadcast with distinct item ids: (a) every live item that is not marked
complete and is in state started ("S") or playing ("P") is in the monitored set
after the tick; (b) every monitored item observed in the live view failing
that test — in particular an item observed complete — has left the monitored
set after the tick, and a re-fetch of the live broadcast was triggered;
(c) a monitored item that does NOT appear among the live items and whose
expected end time has passed triggers a re-fetch of its parent broadcast but,
contrary to the claim, REMAINS in the monitored set — items leave the set
only on a disqualifying observation, never by timeout alone. -/
theorem live_monitor_item_transitions (env : Env) (ms : MonState) (db : Db)
    (sc : ScraperState) (b : LiveB) (hlive : env.live = .ok [b])
    (hnd : (b.items.map (fun i => i.id)).Nodup) :
    (∀ item ∈ b.items, item.isCompleted = false →
      (item.state = some "S" ∨ item.state = some "P") →
      mapHas (checkLiveAndUpdate env ms db sc).ms.monitoredItems item.id = true) ∧
    (∀ item ∈ b.items,
      (!item.isCompleted && (item.state == some "S" || item.state == some "P")) = false →
      mapHas ms.monitoredItems item.id = true →
      mapHas (checkLiveAndUpdate env ms db sc).ms.monitoredItems item.id = false ∧
      (b.programKey, b.broadcastDay) ∈ (checkLiveAndUpdate env ms db sc).calls) ∧
    (∀ (itemId : Int) (d : MonI), mapGet? ms.monitoredItems itemId = some d →
      itemId ∉ b.items.map (fun i => i.id) →
      env.nowMs ≥ jsNum d.endTime →
      mapHas (checkLiveAndUpdate env ms db sc).ms.monitoredItems itemId = true ∧
      (d.programKey, d.broadcastDay) ∈ (checkLiveAndUpdate env ms db sc).calls) := by
  have hred : checkLiveAndUpdate env ms db sc =
      tickSweep env (tickBroadcast env
        { ms := ms, db := db, sc := sc, calls := [] } b) := by
    unfold checkLiveAndUpdate
    rw [hlive]
    simp only [List.isEmpty_cons, Bool.false_eq_true, if_false, List.foldl_cons,
      List.foldl_nil]
  obtain ⟨t1, heq, hms, _⟩ :=
    tickBroadcast_decomp env { ms := ms, db := db, sc := sc, calls := [] } b
  rw [hred, heq]
  refine ⟨?_, ?_, ?_⟩
  · intro item hm hcomp hstate
    rw [tickSweep_ms]
    exact monitorFold_enter env b b.items t1 item hm hnd hcomp hstate
  · intro item hm hcomp hhas
    have hhas1 : mapHas t1.ms.monitoredItems item.id = true := by
      rw [hms]
      exact hhas
    have hle := monitorFold_leave env b b.items t1 item hm hnd hcomp hhas1
    constructor
    · rw [tickSweep_ms]
      exact hle.1
    · exact sweepFold_calls env _ _ _ hle.2
  · intro itemId d hget hnotin hend
    have hrest : ∀ i ∈ b.items, i.id ≠ itemId := by
      intro i hi hcontra
      exact hnotin (hcontra ▸ List.mem_map_of_mem (fun x => x.id) hi)
    have hget1 : mapGet? t1.ms.monitoredItems itemId = some d := by
      rw [hms]
      exact hget
    have hget2 : mapGet? (b.items.foldl (monitorOneItem env b)
        t1).ms.monitoredItems itemId = some d := by
      rw [monitorFold_get_ne env b b.items t1 itemId hrest]
      exact hget1
    constructor
    · rw [tickSweep_ms, mapHas_eq_isSome, hget2]
      rfl
    · exact sweepFold_hit env _ _ (itemId, d) (mem_of_mapGet? _ _ _ hget2) hend

/-- Live item for the C8 witness part (a): playing, not complete. -/
def itemW8a : BItemData :=
  { id := 5, broadcastDay := some 100, programKey := some "4XX", program := none,
    type := none, title := none, interpreter := none, description := none,
    state := some "P", isOnDemand := false, isGeoProtected := false,
    isCompleted := false, duration := none, songId := none, isAdFree := false,
    start := none, startISO := none, endT := some 90, endISO := none,
    images := [] }

/-- Live item for the C8 witness part (b): observed complete. -/
def itemW8b : BItemData :=
  { itemW8a with
    id := 6, state := some "C", isCompleted := true }

/-- Live broadcast for the C8 witness. -/
def bW8 : LiveB :=
  { id := 2, programKey := "4XX", broadcastDay := 100, state := "P",
    items := [itemW8a, itemW8b] }

/-- Pre-tick monitor state for the C8 witness: item 6 (about to complete) and
item 7 (timed out, absent from the live view) are monitored. -/
def msW8 : MonState :=
  { monitoredBroadcasts := [],
    monitoredItems :=
      [(6, { broadcastId := 2, programKey := "4XX", broadcastDay := 100,
             endTime := some 80, state := "P" }),
       (7, { broadcastId := 1, programKey := "4SS", broadcastDay := 100,
             endTime := some 50, state := "P" })],
    processedItems := [] }

/-- Environment for the C8 witness. -/
def envW8 : Env :=
  { envT with
    live := .ok [bW8], fetch := fun _ _ => .ok none, nowMs := 60 }

/-- Witness for C8 at a concrete tick: item 5 enters the monitored set, item 6
leaves it with a re-fetch of its live broadcast, and the timed-out absent item
7 stays monitored while its parent is re-fetched. -/
theorem live_monitor_item_transitions_witness :
    ((bW8.items.map (fun i => i.id)).Nodup ∧ envW8.live = .ok [bW8]) ∧
    mapHas (checkLiveAndUpdate envW8 msW8 Db.empty
      { known := [], isRunning := false }).ms.monitoredItems 5 = true ∧
    (mapHas (checkLiveAndUpdate envW8 msW8 Db.empty
      { known := [], isRunning := false }).ms.monitoredItems 6 = false ∧
     ("4XX", (100 : Int)) ∈ (checkLiveAndUpdate envW8 msW8 Db.empty
      { known := [], isRunning := false }).calls) ∧
    (mapHas (checkLiveAndUpdate envW8 msW8 Db.empty
      { known := [], isRunning := false }).ms.monitoredItems 7 = true ∧
     ("4SS", (100 : Int)) ∈ (checkLiveAndUpdate envW8 msW8 Db.empty
      { known := [], isRunning := false }).calls) := by
  refine ⟨⟨by decide, rfl⟩, ?_, ?_, ?_⟩
  · exact (live_monitor_item_transitions envW8 msW8 Db.empty
      { known := [], isRunning := false } bW8 rfl (by decide)).1
      itemW8a (by decide) rfl (Or.inr rfl)
  · exact (live_monitor_item_transitions envW8 msW8 Db.empty
      { known := [], isRunning := false } bW8 rfl (by decide)).2.1
      itemW8b (by decide) rfl (by decide)
  · exact (live_monitor_item_transitions envW8 msW8 Db.empty
      { known := [], isRunning := false } bW8 rfl (by decide)).2.2
      7 { broadcastId := 1, programKey := "4SS", broadcastDay := 100,
          endTime := some 50, state := "P" }
      (by decide) (by decide) (by decide)

/-! ## C3: content-addressed image deduplication -/

theorem addImageReference_append (db : Db) (ty : String) (eid : Int) (iid : Nat)
    (res : String)
    (h : ({ entity_type := ty, entity_id := eid, image_id := iid,
            resolution_type := res } : RefRow) ∉ db.image_refs) :
    db.addImageReference ty eid iid res =
      { db with image_refs := db.image_refs ++
          [{ entity_type := ty, entity_id := eid, image_id := iid,
             resolution_type := res }] } := by
  have hnc : ¬(db.image_refs.contains
      ({ entity_type := ty, entity_id := eid, image_id := iid,
         resolution_type := res } : RefRow) = true) :=
    fun hc => h (List.elem_iff.mp hc)
  unfold Db.addImageReference
  rw [if_neg hnc]

theorem getImageReferences_nil (db : Db) (ty : String) (eid : Int)
    (h : ∀ r ∈ db.image_refs, ¬(r.entity_type = ty ∧ r.entity_id = eid)) :
    db.getImageReferences ty eid = [] := by
  unfold Db.getImageReferences
  have hf : db.image_refs.filter
      (fun r => r.entity_type == ty && r.entity_id == eid) = [] := by
    rw [List.filter_eq_nil_iff]
    intro r hr
    simp only [Bool.and_eq_true, beq_iff_eq]
    exact h r hr
  rw [hf]
  rfl

theorem getImageByHash_none (db : Db) (hash : Int) (res : String)
    (hno : ∀ r ∈ db.images, r.hash ≠ hash) :
    db.getImageByHash hash res = none := by
  unfold Db.getImageByHash
  apply List.find?_eq_none.mpr
  intro r hr
  simp only [Bool.and_eq_true, beq_iff_eq]
  intro hcon
  exact hno r hr hcon.1

theorem insertImage_fresh (db : Db) (p : ImgParam)
    (hno : ∀ r ∈ db.images, r.hash ≠ p.hash) :
    db.insertImage p = { db with images := db.images ++
      [{ id := db.nextImageId, hash := p.hash, resolution_type := p.resolutionType,
         file_path := p.filePath, width := p.width, height := p.height,
         file_size := p.fileSize }], nextImageId := db.nextImageId + 1 } := by
  unfold Db.insertImage
  rw [getImageByHash_none db p.hash p.resolutionType hno]
  rfl

theorem getImageByHash_append (db : Db) (R : ImageRow) (hash : Int) (res : String)
    (hRh : R.hash = hash) (hRr : R.resolution_type = res)
    (hno : ∀ r ∈ db.images, r.hash ≠ hash) (db' : Db)
    (him : db'.images = db.images ++ [R]) :
    db'.getImageByHash hash res = some R := by
  unfold Db.getImageByHash
  rw [him, List.find?_append]
  have h1 : db.images.find?
      (fun r => r.hash == hash && r.resolution_type == res) = none := by
    apply List.find?_eq_none.mpr
    intro r hr
    simp only [Bool.and_eq_true, beq_iff_eq]
    intro hcon
    exact hno r hr hcon.1
  rw [h1]
  simp [hRh, hRr]

theorem processAndStoreImage_fresh (E : ImgEnv) (db : Db) (u : String) (buf : Int)
    (hdl : E.download u = .ok buf)
    (hno : ∀ r ∈ db.images, r.hash ≠ E.hashOf buf) :
    processAndStoreImage E db u "high" =
      ((db.insertImage (imageRecordOf E buf "high")).getImageByHash
         (E.hashOf buf) "high",
       db.insertImage (imageRecordOf E buf "high")) := by
  have hnone : db.getImageByHash (E.hashOf buf) "high" = none :=
    getImageByHash_none db (E.hashOf buf) "high" hno
  simp [processAndStoreImage, hdl, hnone]

theorem processAndStoreImage_reuse (E : ImgEnv) (db : Db) (u : String) (buf : Int)
    (R : ImageRow) (hdl : E.download u = .ok buf)
    (hfound : db.getImageByHash (E.hashOf buf) "high" = some R) :
    processAndStoreImage E db u "high" = (some R, db) := by
  simp [processAndStoreImage, hdl, hfound]

theorem processImageVersions_single (E : ImgEnv) (db : Db) (img : ImgData)
    (w : Int) (u : String) (himg : img.versions = [{ width := w, path := u }]) :
    processImageVersions E db img =
      (((processAndStoreImage E db u "high").1,
        (processAndStoreImage E db u "high").1),
       (processAndStoreImage E db u "high").2) := by
  unfold processImageVersions
  rw [himg]
  simp

theorem processOneEntityImage_eq (E : ImgEnv) (ty : String) (eid : Int) (db : Db)
    (img : ImgData) (R : ImageRow) (db' : Db)
    (hPIV : processImageVersions E db img = ((some R, some R), db')) :
    processOneEntityImage E ty eid db img =
      (db'.addImageReference ty eid R.id "high").addImageReference ty eid R.id
        "low" := by
  unfold processOneEntityImage
  rw [hPIV]
  simp

theorem processEntityImages_single (E : ImgEnv) (ty : String) (img : ImgData)
    (eid : Int) (db : Db) (href : db.getImageReferences ty eid = []) :
    processEntityImages E ty [img] eid db = processOneEntityImage E ty eid db img := by
  unfold processEntityImages
  rw [href]
  simp

/-- Ingestion of two owning entities' images in sequence, as the engine does
when two entities carry images (each through the shared
`processBroadcastImages` / `processBroadcastItemImages` body). -/
def ingestTwo (E : ImgEnv) (ty1 : String) (id1 : Int) (img1 : ImgData)
    (ty2 : String) (id2 : Int) (img2 : ImgData) (db0 : Db) : Db :=
  processEntityImages E ty2 [img2] id2 (processEntityImages E ty1 [img1] id1 db0)

theorem addImageReference_images (db : Db) (ty : String) (eid : Int) (iid : Nat)
    (res : String) : (db.addImageReference ty eid iid res).images = db.images := by
  unfold Db.addImageReference
  split <;> rfl

theorem addImageReference_nextImageId (db : Db) (ty : String) (eid : Int)
    (iid : Nat) (res : String) :
    (db.addImageReference ty eid iid res).nextImageId = db.nextImageId := by
  unfold Db.addImageReference
  split <;> rfl

theorem addImageReference_refs (db : Db) (ty : String) (eid : Int) (iid : Nat)
    (res : String)
    (h : ({ entity_type := ty, entity_id := eid, image_id := iid,
            resolution_type := res } : RefRow) ∉ db.image_refs) :
    (db.addImageReference ty eid iid res).image_refs =
      db.image_refs ++
        [{ entity_type := ty, entity_id := eid, image_id := iid,
           resolution_type := res }] := by
  rw [addImageReference_append db ty eid iid res h]

theorem processEntityImages_fresh (E : ImgEnv) (ty : String) (eid : Int)
    (db : Db) (img : ImgData) (w : Int) (u : String) (buf : Int)
    (himg : img.versions = [{ width := w, path := u }])
    (hdl : E.download u = .ok buf)
    (hno : ∀ r ∈ db.images, r.hash ≠ E.hashOf buf)
    (hq : ∀ r ∈ db.image_refs, ¬(r.entity_type = ty ∧ r.entity_id = eid)) :
    ∃ R : ImageRow, R.id = db.nextImageId ∧ R.hash = E.hashOf buf ∧
      R.resolution_type = "high" ∧
      (processEntityImages E ty [img] eid db).images = db.images ++ [R] ∧
      (processEntityImages E ty [img] eid db).image_refs =
        (db.image_refs ++
          [{ entity_type := ty, entity_id := eid, image_id := R.id,
             resolution_type := "high" }]) ++
          [{ entity_type := ty, entity_id := eid, image_id := R.id,
             resolution_type := "low" }] ∧
      (processEntityImages E ty [img] eid db).nextImageId = db.nextImageId + 1 := by
  have hins := insertImage_fresh db (imageRecordOf E buf "high")
    (fun r hr => hno r hr)
  set R : ImageRow :=
    { id := db.nextImageId, hash := (imageRecordOf E buf "high").hash,
      resolution_type := (imageRecordOf E buf "high").resolutionType,
      file_path := (imageRecordOf E buf "high").filePath,
      width := (imageRecordOf E buf "high").width,
      height := (imageRecordOf E buf "high").height,
      file_size := (imageRecordOf E buf "high").fileSize } with hR
  have hfound : (db.insertImage (imageRecordOf E buf "high")).getImageByHash
      (E.hashOf buf) "high" = some R := by
    apply getImageByHash_append db R (E.hashOf buf) "high" rfl rfl hno
    rw [hins, hR]
  have hpasi : processAndStoreImage E db u "high" =
      (some R, db.insertImage (imageRecordOf E buf "high")) := by
    rw [processAndStoreImage_fresh E db u buf hdl hno, hfound]
  have hPIV : processImageVersions E db img =
      ((some R, some R), db.insertImage (imageRecordOf E buf "high")) := by
    rw [processImageVersions_single E db img w u himg, hpasi]
  have hone : processEntityImages E ty [img] eid db =
      ((db.insertImage (imageRecordOf E buf "high")).addImageReference ty eid
        R.id "high").addImageReference ty eid R.id "low" := by
    rw [processEntityImages_single E ty img eid db
        (getImageReferences_nil db ty eid hq),
      processOneEntityImage_eq E ty eid db img R _ hPIV]
  have hq1 : ({ entity_type := ty, entity_id := eid, image_id := R.id,
                resolution_type := "high" } : RefRow) ∉
      (db.insertImage (imageRecordOf E buf "high")).image_refs := by
    rw [hins]
    intro hm
    exact hq _ hm ⟨rfl, rfl⟩
  have hrefs1 : ((db.insertImage (imageRecordOf E buf "high")).addImageReference
      ty eid R.id "high").image_refs =
      (db.insertImage (imageRecordOf E buf "high")).image_refs ++
        [{ entity_type := ty, entity_id := eid, image_id := R.id,
           resolution_type := "high" }] :=
    addImageReference_refs _ ty eid R.id "high" hq1
  have hq2 : ({ entity_type := ty, entity_id := eid, image_id := R.id,
                resolution_type := "low" } : RefRow) ∉
      ((db.insertImage (imageRecordOf E buf "high")).addImageReference ty eid
        R.id "high").image_refs := by
    rw [hrefs1, hins]
    intro hm
    rcases List.mem_append.mp hm with hm1 | hm1
    · exact hq _ hm1 ⟨rfl, rfl⟩
    · have h2 := List.mem_singleton.mp hm1
      have h3 : ("low" : String) = "high" := congrArg RefRow.resolution_type h2
      exact absurd h3 (by decide)
  refine ⟨R, rfl, rfl, rfl, ?_, ?_, ?_⟩
  · rw [hone, addImageReference_images, addImageReference_images, hins]
  · rw [hone, addImageReference_refs _ ty eid R.id "low" hq2, hrefs1, hins]
  · rw [hone, addImageReference_nextImageId, addImageReference_nextImageId, hins]

theorem processEntityImages_reuse (E : ImgEnv) (ty : String) (eid : Int)
    (db : Db) (img : ImgData) (w : Int) (u : String) (buf : Int) (R : ImageRow)
    (himg : img.versions = [{ width := w, path := u }])
    (hdl : E.download u = .ok buf)
    (hfound : db.getImageByHash (E.hashOf buf) "high" = some R)
    (hq : ∀ r ∈ db.image_refs, ¬(r.entity_type = ty ∧ r.entity_id = eid)) :
    (processEntityImages E ty [img] eid db).images = db.images ∧
    (processEntityImages E ty [img] eid db).image_refs =
      (db.image_refs ++
        [{ entity_type := ty, entity_id := eid, image_id := R.id,
           resolution_type := "high" }]) ++
        [{ entity_type := ty, entity_id := eid, image_id := R.id,
           resolution_type := "low" }] ∧
    (processEntityImages E ty [img] eid db).nextImageId = db.nextImageId := by
  have hpasi : processAndStoreImage E db u "high" = (some R, db) :=
    processAndStoreImage_reuse E db u buf R hdl hfound
  have hPIV : processImageVersions E db img = ((some R, some R), db) := by
    rw [processImageVersions_single E db img w u himg, hpasi]
  have hone : processEntityImages E ty [img] eid db =
      (db.addImageReference ty eid R.id "high").addImageReference ty eid
        R.id "low" := by
    rw [processEntityImages_single E ty img eid db
        (getImageReferences_nil db ty eid hq),
      processOneEntityImage_eq E ty eid db img R db hPIV]
  have hq1 : ({ entity_type := ty, entity_id := eid, image_id := R.id,
                resolution_type := "high" } : RefRow) ∉ db.image_refs := by
    intro hm
    exact hq _ hm ⟨rfl, rfl⟩
  have hrefs1 : (db.addImageReference ty eid R.id "high").image_refs =
      db.image_refs ++
        [{ entity_type := ty, entity_id := eid, image_id := R.id,
           resolution_type := "high" }] :=
    addImageReference_refs db ty eid R.id "high" hq1
  have hq2 : ({ entity_type := ty, entity_id := eid, image_id := R.id,
                resolution_type := "low" } : RefRow) ∉
      (db.addImageReference ty eid R.id "high").image_refs := by
    rw [hrefs1]
    intro hm
    rcases List.mem_append.mp hm with hm1 | hm1
    · exact hq _ hm1 ⟨rfl, rfl⟩
    · have h2 := List.mem_singleton.mp hm1
      have h3 : ("low" : String) = "high" := congrArg RefRow.resolution_type h2
      exact absurd h3 (by decide)
  refine ⟨?_, ?_, ?_⟩
  · rw [hone, addImageReference_images, addImageReference_images]
  · rw [hone, addImageReference_refs _ ty eid R.id "low" hq2, hrefs1]
  · rw [hone, addImageReference_nextImageId, addImageReference_nextImageId]

/-- **C3.** Content-addressed image deduplication: when two distinct owning
entities reference byte-identical remote images (both downloads yield the same
bytes `buf`), ingesting both against a store with no Image row for that
content hash and no references for either entity yields exactly one new Image
row `R` for the hash (resolution `high`), the second ingestion writes no Image
row (the store's image table is unchanged by it), and exactly one `high`
ImageReference row per owning entity points at `R` (each owner also gets its
`low` reference to the same row, since a single-version image shares the row
across resolutions). -/
theorem image_dedup (E : ImgEnv) (db0 : Db) (ty1 ty2 : String) (id1 id2 : Int)
    (u1 u2 : String) (buf w1 w2 : Int) (img1 img2 : ImgData)
    (himg1 : img1.versions = [{ width := w1, path := u1 }])
    (himg2 : img2.versions = [{ width := w2, path := u2 }])
    (hdl1 : E.download u1 = .ok buf) (hdl2 : E.download u2 = .ok buf)
    (hno : ∀ r ∈ db0.images, r.hash ≠ E.hashOf buf)
    (hrefs : ∀ r ∈ db0.image_refs,
      ¬(r.entity_type = ty1 ∧ r.entity_id = id1) ∧
      ¬(r.entity_type = ty2 ∧ r.entity_id = id2))
    (hfresh : ∀ r ∈ db0.image_refs, r.image_id ≠ db0.nextImageId)
    (hdiff : ¬(ty1 = ty2 ∧ id1 = id2)) :
    ∃ R : ImageRow, R.id = db0.nextImageId ∧ R.hash = E.hashOf buf ∧
      R.resolution_type = "high" ∧
      (ingestTwo E ty1 id1 img1 ty2 id2 img2 db0).images = db0.images ++ [R] ∧
      (ingestTwo E ty1 id1 img1 ty2 id2 img2 db0).images =
        (processEntityImages E ty1 [img1] id1 db0).images ∧
      ((ingestTwo E ty1 id1 img1 ty2 id2 img2 db0).images.filter
        (fun r => r.hash == E.hashOf buf)).length = 1 ∧
      (ingestTwo E ty1 id1 img1 ty2 id2 img2 db0).image_refs =
        db0.image_refs ++
          [{ entity_type := ty1, entity_id := id1, image_id := R.id,
             resolution_type := "high" },
           { entity_type := ty1, entity_id := id1, image_id := R.id,
             resolution_type := "low" },
           { entity_type := ty2, entity_id := id2, image_id := R.id,
             resolution_type := "high" },
           { entity_type := ty2, entity_id := id2, image_id := R.id,
             resolution_type := "low" }] ∧
      ((ingestTwo E ty1 id1 img1 ty2 id2 img2 db0).image_refs.filter
        (fun r => r.image_id == R.id && r.resolution_type == "high")).length
        = 2 := by
  obtain ⟨R, hRid, hRhash, hRres, hims1, hrefs1, _⟩ :=
    processEntityImages_fresh E ty1 id1 db0 img1 w1 u1 buf himg1 hdl1 hno
      (fun r hr => (hrefs r hr).1)
  have hfound2 : (processEntityImages E ty1 [img1] id1 db0).getImageByHash
      (E.hashOf buf) "high" = some R :=
    getImageByHash_append db0 R (E.hashOf buf) "high" hRhash hRres hno _ hims1
  have hq2 : ∀ r ∈ (processEntityImages E ty1 [img1] id1 db0).image_refs,
      ¬(r.entity_type = ty2 ∧ r.entity_id = id2) := by
    intro r hr
    rw [hrefs1] at hr
    rcases List.mem_append.mp hr with hm | hm
    · rcases List.mem_append.mp hm with hm2 | hm2
      · exact (hrefs r hm2).2
      · rcases List.mem_singleton.mp hm2 with rfl
        intro hcon
        exact hdiff ⟨hcon.1, hcon.2⟩
    · rcases List.mem_singleton.mp hm with rfl
      intro hcon
      exact hdiff ⟨hcon.1, hcon.2⟩
  obtain ⟨hims2, hrefs2, _⟩ :=
    processEntityImages_reuse E ty2 id2
      (processEntityImages E ty1 [img1] id1 db0) img2 w2 u2 buf R himg2 hdl2
      hfound2 hq2
  refine ⟨R, hRid, hRhash, hRres, ?_, ?_, ?_, ?_, ?_⟩
  · unfold ingestTwo
    rw [hims2, hims1]
  · unfold ingestTwo
    rw [hims2]
  · have hf0 : db0.images.filter (fun r => r.hash == E.hashOf buf) = [] := by
      rw [List.filter_eq_nil_iff]
      intro r hr
      simp only [beq_iff_eq]
      exact hno r hr
    unfold ingestTwo
    rw [hims2, hims1, List.filter_append, hf0]
    simp [hRhash]
  · unfold ingestTwo
    rw [hrefs2, hrefs1]
    simp [List.append_assoc]
  · have hfr : db0.image_refs.filter
        (fun r => r.image_id == R.id && r.resolution_type == "high") = [] := by
      rw [List.filter_eq_nil_iff]
      intro r hr
      simp only [Bool.and_eq_true, beq_iff_eq]
      intro hcon
      exact hfresh r hr (hRid ▸ hcon.1)
    unfold ingestTwo
    rw [hrefs2, hrefs1, List.filter_append, List.filter_append,
      List.filter_append, List.filter_append, hfr]
    simp

/-- Image environment for the C3 witness: every download yields the byte
content `42`. -/
def imgW3 : ImgEnv :=
  { imgT with download := fun _ => .ok 42 }

/-- First owning entity's image for the C3 witness. -/
def imgDataW3a : ImgData := { versions := [{ width := 5, path := "u1" }] }

/-- Second owning entity's image for the C3 witness. -/
def imgDataW3b : ImgData := { versions := [{ width := 7, path := "u2" }] }

/-- Witness for C3: a broadcast and a broadcast item referencing byte-identical
images ingested into the empty store. -/
theorem image_dedup_witness :
    (imgW3.download "u1" = .ok 42 ∧ imgW3.download "u2" = .ok 42 ∧
      ¬(("broadcast" : String) = "broadcast_item" ∧ (1 : Int) = 3)) ∧
    (∃ R : ImageRow, R.id = Db.empty.nextImageId ∧ R.hash = imgW3.hashOf 42 ∧
      R.resolution_type = "high" ∧
      (ingestTwo imgW3 "broadcast" 1 imgDataW3a "broadcast_item" 3 imgDataW3b
        Db.empty).images = Db.empty.images ++ [R] ∧
      (ingestTwo imgW3 "broadcast" 1 imgDataW3a "broadcast_item" 3 imgDataW3b
        Db.empty).images =
        (processEntityImages imgW3 "broadcast" [imgDataW3a] 1 Db.empty).images ∧
      ((ingestTwo imgW3 "broadcast" 1 imgDataW3a "broadcast_item" 3 imgDataW3b
        Db.empty).images.filter (fun r => r.hash == imgW3.hashOf 42)).length
        = 1 ∧
      (ingestTwo imgW3 "broadcast" 1 imgDataW3a "broadcast_item" 3 imgDataW3b
        Db.empty).image_refs =
        Db.empty.image_refs ++
          [{ entity_type := "broadcast", entity_id := 1, image_id := R.id,
             resolution_type := "high" },
           { entity_type := "broadcast", entity_id := 1, image_id := R.id,
             resolution_type := "low" },
           { entity_type := "broadcast_item", entity_id := 3, image_id := R.id,
             resolution_type := "high" },
           { entity_type := "broadcast_item", entity_id := 3, image_id := R.id,
             resolution_type := "low" }] ∧
      ((ingestTwo imgW3 "broadcast" 1 imgDataW3a "broadcast_item" 3 imgDataW3b
        Db.empty).image_refs.filter
        (fun r => r.image_id == R.id && r.resolution_type == "high")).length
        = 2) :=
  ⟨⟨rfl, rfl, by decide⟩,
   image_dedup imgW3 Db.empty "broadcast" "broadcast_item" 1 3 "u1" "u2" 42 5 7
     imgDataW3a imgDataW3b rfl rfl rfl rfl (by decide) (by decide) (by decide)
     (by decide)⟩

/-! ## C9: store-error containment (fault-instrumented variants)

A fault schedule `fault : Nat → Bool` injects store errors: `fault n = true`
means the `n`-th store write of the run throws (a constraint violation or I/O
failure inside better-sqlite3). A thrown write leaves the store as already
committed and the op counter advances past the faulted write; the `F`
variants below re-trace the source with these faultable writes, with each
function's own `try/catch` exactly where the source has one. -/

/-- Fault-instrumented `ImageService.processAndStoreImage`: its `try/catch`
(image-service.js lines 30 and 87–90) turns a thrown `db.insertImage` into a
`null` result for just this ingestion, keeping the store as committed. -/
def processAndStoreImageF (E : ImgEnv) (fault : Nat → Bool) (db : Db) (n : Nat)
    (imageUrl : String) (resolutionType : String) : Option ImageRow × Db × Nat :=
  match E.download imageUrl with
  | .error _ => (none, db, n)
  | .ok buf =>
    let hash := E.hashOf buf
    match db.getImageByHash hash resolutionType with
    | some existingImage => (some existingImage, db, n)
    | none =>
      if fault n then (none, db, n + 1)
      else
        let db' := db.insertImage (imageRecordOf E buf resolutionType)
        (db'.getImageByHash hash resolutionType, db', n + 1)

/-- Fault-instrumented per-item step of the scraper's item loop: a thrown
`db.insertBroadcastItem`, or a store error escaping the item's image
ingestion (e.g. `db.addImageReference`, which no inner `try/catch` guards),
propagates out of the loop as an exception carrying the committed store. -/
def scrapeOneItemF (E : ImgEnv) (fault : Nat → Bool) (resultId : Int)
    (existingItemIds : List Int) (st : Except (Db × Nat) (Db × Nat))
    (item : BItemData) : Except (Db × Nat) (Db × Nat) :=
  match st with
  | .error e => .error e
  | .ok (db, n) =>
    if existingItemIds.contains item.id then .ok (db, n)
    else if fault n then .error (db, n + 1)
    else
      let ins := db.insertBroadcastItem (itemRecordOf item) resultId
      match (ins.2.getBroadcastItems resultId).find? (fun i => i.item_id == item.id) with
      | some savedItem =>
        if item.images.isEmpty then .ok (ins.2, n + 1)
        else if fault (n + 1) then .error (ins.2, n + 2)
        else .ok (processBroadcastItemImages E item.images (savedItem.rowId : Int)
          ins.2, n + 2)
      | none => .ok (ins.2, n + 1)

/-- Fault-instrumented item loop of `BroadcastScraper.scrapeBroadcast`: an
exception from any item step aborts the rest of the loop. -/
def scrapeItemsLoopF (E : ImgEnv) (fault : Nat → Bool) (db : Db) (n : Nat)
    (resultId : Int) (items : List BItemData) : Except (Db × Nat) (Db × Nat) :=
  let existingItemIds := (db.getBroadcastItems resultId).map (·.item_id)
  items.foldl (scrapeOneItemF E fault resultId existingItemIds) (.ok (db, n))

/-- The `record` handed to `insertBroadcast` by the scraper for a fetched
detail `bd` (broadcast-scraper.js lines 81–103), with the loopstream fields of
the first stream. -/
def scrapedBParamOf (bd : BData) : BParam :=
  let ls : Option String × Option Int × Option Int :=
    match bd.streams with
    | [] => (none, none, none)
    | s :: _ => (s.loopStreamId, s.start, s.endT)
  { id := bd.id, broadcastDay := bd.broadcastDay, programKey := bd.programKey,
    title := bd.title, state := bd.state, start := bd.start, endT := bd.endT,
    loopStreamId := ls.1, loopStreamStart := ls.2.1, loopStreamEnd := ls.2.2,
    done := false }

/-- The tail of `scrapeFetch` after the broadcast row upsert: re-read the row,
ingest images, run the item loop, mark done when the fetched end time passed.
Equal to the corresponding part of `scrapeFetch` by `scrapeFetch_layers`. -/
def scrapeAfterBroadcastT (env : Env) (bd : BData) (sc1 : ScraperState)
    (db2 : Db) (programKey : String) (broadcastDay : Int) : ScrapeOut :=
  match db2.getBroadcast broadcastDay programKey with
  | none =>
    { res := none, db := db2, sc := sc1, fetches := [(programKey, broadcastDay)] }
  | some result =>
    let db3 := if bd.images.isEmpty then db2
               else processBroadcastImages env.img bd.images result.id db2
    let db4 := if bd.items.isEmpty then db3
               else scrapeItemsLoop env.img db3 result.id bd.items
    if truthyI bd.endT && decide (jsNum bd.endT < env.nowMs) then
      { res := some { result with done := true },
        db := db4.markBroadcastAsDone env.nowSec result.id, sc := sc1,
        fetches := [(programKey, broadcastDay)] }
    else
      { res := some result, db := db4, sc := sc1,
        fetches := [(programKey, broadcastDay)] }

/-- Fault-instrumented tail of the scrape body after the broadcast row upsert:
the broadcast-image ingestion, each item write, and `markBroadcastAsDone`
can throw, aborting the body with the committed store. -/
def scrapeAfterBroadcastF (env : Env) (fault : Nat → Bool) (bd : BData)
    (sc1 : ScraperState) (db2 : Db) (n2 : Nat) (programKey : String)
    (broadcastDay : Int) :
    Except (Db × ScraperState × Nat) (Option BRow × Db × ScraperState × Nat) :=
  match db2.getBroadcast broadcastDay programKey with
  | none => .ok (none, db2, sc1, n2)
  | some result =>
    let imgF : Except (Db × ScraperState × Nat) (Db × Nat) :=
      if bd.images.isEmpty then .ok (db2, n2)
      else if fault n2 then .error (db2, sc1, n2 + 1)
      else .ok (processBroadcastImages env.img bd.images result.id db2, n2 + 1)
    match imgF with
    | .error e => .error e
    | .ok (db3, n3) =>
      let itemsF : Except (Db × Nat) (Db × Nat) :=
        if bd.items.isEmpty then .ok (db3, n3)
        else scrapeItemsLoopF env.img fault db3 n3 result.id bd.items
      match itemsF with
      | .error (dbe, ne) => .error (dbe, sc1, ne)
      | .ok (db4, n4) =>
        if truthyI bd.endT && decide (jsNum bd.endT < env.nowMs) then
          if fault n4 then .error (db4, sc1, n4 + 1)
          else .ok (some { result with done := true },
                    db4.markBroadcastAsDone env.nowSec result.id, sc1, n4 + 1)
        else .ok (some result, db4, sc1, n4)

/-- Fault-instrumented fetch-and-persist body of
`BroadcastScraper.scrapeBroadcast`: each store write (`insertProgramKey`,
`insertBroadcast`, then the writes of the tail) can throw, aborting the body with
the committed store, scraper state and op counter at the throw. -/
def scrapeFetchF (env : Env) (fault : Nat → Bool) (sc : ScraperState) (db : Db)
    (n : Nat) (programKey : String) (broadcastDay : Int) :
    Except (Db × ScraperState × Nat) (Option BRow × Db × ScraperState × Nat) :=
  match env.fetch programKey broadcastDay with
  | .error _ => .ok (none, db, sc, n)
  | .ok none => .ok (none, db, sc, n)
  | .ok (some bd) =>
    if sc.known.contains programKey then
      if fault n then .error (db, sc, n + 1)
      else scrapeAfterBroadcastF env fault bd sc
        (db.insertBroadcast env.nowSec (scrapedBParamOf bd)) (n + 1)
        programKey broadcastDay
    else if fault n then .error (db, sc, n + 1)
    else if fault (n + 1) then
      .error (db.insertProgramKey programKey bd.title,
              { sc with known := sc.known ++ [programKey] }, n + 2)
    else scrapeAfterBroadcastF env fault bd
      { sc with known := sc.known ++ [programKey] }
      ((db.insertProgramKey programKey bd.title).insertBroadcast env.nowSec
        (scrapedBParamOf bd)) (n + 2) programKey broadcastDay

/-- Result of a fault-instrumented `scrapeBroadcast` call. -/
structure ScrapeOutF where
  res : Option BRow
  db : Db
  sc : ScraperState
  n : Nat
  deriving DecidableEq, Repr

/-- Fault-instrumented `BroadcastScraper.scrapeBroadcast`: its `try/catch`
(broadcast-scraper.js lines 51 and 176–179) turns any store error thrown in
the body into a `null` result for just this scrape, keeping the store and
scraper state as committed at the throw. -/
def scrapeBroadcastF (env : Env) (fault : Nat → Bool) (sc : ScraperState)
    (db : Db) (programKey : String) (broadcastDay : Int) (forceFetch : Bool)
    (n : Nat) : ScrapeOutF :=
  let body : Except (Db × ScraperState × Nat) (Option BRow × Db × ScraperState × Nat) :=
    match db.getBroadcast broadcastDay programKey with
    | some existing =>
      if existing.done then .ok (some existing, db, sc, n)
      else if forceFetch = false ∧ env.nowMs < (existing.updated_at + 3600) * 1000 then
        .ok (some existing, db, sc, n)
      else scrapeFetchF env fault sc db n programKey broadcastDay
    | none => scrapeFetchF env fault sc db n programKey broadcastDay
  match body with
  | .ok (r, db', sc', n') => { res := r, db := db', sc := sc', n := n' }
  | .error (db', sc', n') => { res := none, db := db', sc := sc', n := n' }

/-- Fault-instrumented probe of the additional-days walk: the walk logs the
probe whether or not the scrape failed internally (the source only counts
`totalFailed` on a `null` result and keeps going). -/
def probeOneKeyF (env : Env) (fault : Nat → Bool) (broadcastDay : Int)
    (acc : Db × ScraperState × Nat × List (String × Int)) (programKey : String) :
    Db × ScraperState × Nat × List (String × Int) :=
  let o := scrapeBroadcastF env fault acc.2.1 acc.1 programKey broadcastDay false
    acc.2.2.1
  (o.db, o.sc, o.n, acc.2.2.2 ++ [(programKey, broadcastDay)])

/-- Fault-instrumented per-day step of the additional-days walk. -/
def backfillDayF (env : Env) (fault : Nat → Bool) (daysSet : List Int)
    (programKeys : List String) (startOffset : Int)
    (acc : Db × ScraperState × Nat × List (String × Int)) (i : Nat) :
    Db × ScraperState × Nat × List (String × Int) :=
  let daysAgo := startOffset + i + 1
  let broadcastDay := env.today - daysAgo
  if daysSet.contains broadcastDay then acc
  else programKeys.foldl (probeOneKeyF env fault broadcastDay) acc

/-- Fault-instrumented additional-days walk of `scrapeHistoricalBroadcasts`. -/
def backfillWalkF (env : Env) (fault : Nat → Bool) (daysSet : List Int)
    (programKeys : List String) (startOffset : Int) (additionalDaysNeeded : Nat)
    (db : Db) (sc : ScraperState) (n : Nat) :
    Db × ScraperState × Nat × List (String × Int) :=
  (List.range additionalDaysNeeded).foldl
    (backfillDayF env fault daysSet programKeys startOffset) (db, sc, n, [])

theorem scrapeOneItemF_noFault (E : ImgEnv) (rid : Int) (ex : List Int)
    (item : BItemData) (db : Db) (n : Nat) :
    ∃ n', scrapeOneItemF E (fun _ => false) rid ex (.ok (db, n)) item =
      .ok (scrapeOneItem E rid ex db item, n') := by
  by_cases hc : item.id ∈ ex
  · exact ⟨n, by simp [scrapeOneItemF, scrapeOneItem, hc]⟩
  · cases hfind : ((db.insertBroadcastItem (itemRecordOf item) rid).2.getBroadcastItems
        rid).find? (fun i => i.item_id == item.id) with
    | none => exact ⟨n + 1, by simp [scrapeOneItemF, scrapeOneItem, hc, hfind]⟩
    | some savedItem =>
      by_cases him : item.images = []
      · exact ⟨n + 1, by simp [scrapeOneItemF, scrapeOneItem, hc, hfind, him]⟩
      · exact ⟨n + 2, by simp [scrapeOneItemF, scrapeOneItem, hc, hfind, him]⟩

theorem itemsFoldF_noFault (E : ImgEnv) (rid : Int) (ex : List Int) :
    ∀ (items : List BItemData) (db : Db) (n : Nat),
    ∃ n', items.foldl (scrapeOneItemF E (fun _ => false) rid ex) (.ok (db, n)) =
      .ok (items.foldl (scrapeOneItem E rid ex) db, n') := by
  intro items
  induction items with
  | nil => intro db n; exact ⟨n, rfl⟩
  | cons a t ih =>
    intro db n
    obtain ⟨n1, h1⟩ := scrapeOneItemF_noFault E rid ex a db n
    rw [List.foldl_cons, h1, List.foldl_cons]
    exact ih _ n1

theorem scrapeItemsLoopF_noFault (E : ImgEnv) (db : Db) (n : Nat) (rid : Int)
    (items : List BItemData) :
    ∃ n', scrapeItemsLoopF E (fun _ => false) db n rid items =
      .ok (scrapeItemsLoop E db rid items, n') := by
  unfold scrapeItemsLoopF scrapeItemsLoop
  exact itemsFoldF_noFault E rid _ items db n

theorem scrapeFetch_layers (env : Env) (sc : ScraperState) (db : Db)
    (k : String) (d : Int) :
    scrapeFetch env sc db k d =
      match env.fetch k d with
      | .error _ => { res := none, db := db, sc := sc, fetches := [(k, d)] }
      | .ok none => { res := none, db := db, sc := sc, fetches := [(k, d)] }
      | .ok (some bd) =>
        if sc.known.contains k then
          scrapeAfterBroadcastT env bd sc
            (db.insertBroadcast env.nowSec (scrapedBParamOf bd)) k d
        else
          scrapeAfterBroadcastT env bd { sc with known := sc.known ++ [k] }
            ((db.insertProgramKey k bd.title).insertBroadcast env.nowSec
              (scrapedBParamOf bd)) k d := by
  unfold scrapeFetch scrapeAfterBroadcastT scrapedBParamOf
  cases env.fetch k d with
  | error e => rfl
  | ok ob =>
    cases ob with
    | none => rfl
    | some bd =>
      by_cases hknown : k ∈ sc.known <;> simp [hknown]

theorem scrapeAfterBroadcastF_noFault (env : Env) (bd : BData)
    (sc1 : ScraperState) (db2 : Db) (n2 : Nat) (k : String) (d : Int) :
    ∃ n', scrapeAfterBroadcastF env (fun _ => false) bd sc1 db2 n2 k d =
      .ok ((scrapeAfterBroadcastT env bd sc1 db2 k d).res,
           (scrapeAfterBroadcastT env bd sc1 db2 k d).db,
           (scrapeAfterBroadcastT env bd sc1 db2 k d).sc, n') := by
  unfold scrapeAfterBroadcastF scrapeAfterBroadcastT
  cases hgb : db2.getBroadcast d k with
  | none => exact ⟨n2, by simp [hgb]⟩
  | some result =>
    by_cases himg : bd.images.isEmpty = true
    · by_cases hit : bd.items.isEmpty = true
      · by_cases hend : (truthyI bd.endT && decide (jsNum bd.endT < env.nowMs)) = true
        · exact ⟨n2 + 1, by simp [hgb, himg, hit, hend]⟩
        · exact ⟨n2, by simp [hgb, himg, hit, hend]⟩
      · obtain ⟨nL, hL⟩ := scrapeItemsLoopF_noFault env.img db2 n2 result.id bd.items
        by_cases hend : (truthyI bd.endT && decide (jsNum bd.endT < env.nowMs)) = true
        · exact ⟨nL + 1, by simp [hgb, himg, hit, hend, hL]⟩
        · exact ⟨nL, by simp [hgb, himg, hit, hend, hL]⟩
    · by_cases hit : bd.items.isEmpty = true
      · by_cases hend : (truthyI bd.endT && decide (jsNum bd.endT < env.nowMs)) = true
        · exact ⟨n2 + 2, by simp [hgb, himg, hit, hend]⟩
        · exact ⟨n2 + 1, by simp [hgb, himg, hit, hend]⟩
      · obtain ⟨nL, hL⟩ := scrapeItemsLoopF_noFault env.img
          (processBroadcastImages env.img bd.images result.id db2) (n2 + 1)
          result.id bd.items
        by_cases hend : (truthyI bd.endT && decide (jsNum bd.endT < env.nowMs)) = true
        · exact ⟨nL + 1, by simp [hgb, himg, hit, hend, hL]⟩
        · exact ⟨nL, by simp [hgb, himg, hit, hend, hL]⟩

theorem scrapeFetchF_noFault (env : Env) (sc : ScraperState) (db : Db) (n : Nat)
    (k : String) (d : Int) :
    ∃ n', scrapeFetchF env (fun _ => false) sc db n k d =
      .ok ((scrapeFetch env sc db k d).res, (scrapeFetch env sc db k d).db,
           (scrapeFetch env sc db k d).sc, n') := by
  rw [scrapeFetch_layers env sc db k d]
  unfold scrapeFetchF
  cases hf : env.fetch k d with
  | error e => exact ⟨n, rfl⟩
  | ok ob =>
    cases ob with
    | none => exact ⟨n, rfl⟩
    | some bd =>
      by_cases hknown : k ∈ sc.known
      · have hc : sc.known.contains k = true := by simpa using hknown
        simp only [hc, eq_self_iff_true, if_true]
        exact scrapeAfterBroadcastF_noFault env bd sc _ (n + 1) k d
      · have hc : sc.known.contains k = false := by simpa using hknown
        simp only [hc, Bool.false_eq_true, if_false]
        exact scrapeAfterBroadcastF_noFault env bd _ _ (n + 2) k d

theorem scrapeBroadcastF_noFault (env : Env) (sc : ScraperState) (db : Db)
    (k : String) (d : Int) (force : Bool) (n : Nat) :
    ∃ n', scrapeBroadcastF env (fun _ => false) sc db k d force n =
      { res := (scrapeBroadcast env sc db k d force).res,
        db := (scrapeBroadcast env sc db k d force).db,
        sc := (scrapeBroadcast env sc db k d force).sc, n := n' } := by
  unfold scrapeBroadcastF scrapeBroadcast
  cases hgb : db.getBroadcast d k with
  | none =>
    obtain ⟨n', hf⟩ := scrapeFetchF_noFault env sc db n k d
    exact ⟨n', by simp [hgb, hf]⟩
  | some ex =>
    by_cases hdone : ex.done = true
    · exact ⟨n, by simp [hgb, hdone]⟩
    · by_cases hrec : force = false ∧ env.nowMs < (ex.updated_at + 3600) * 1000
      · exact ⟨n, by simp [hgb, hdone, hrec]⟩
      · obtain ⟨n', hf⟩ := scrapeFetchF_noFault env sc db n k d
        exact ⟨n', by simp [hgb, hdone, hrec, hf]⟩

theorem probeFoldF_log (env : Env) (fault : Nat → Bool) (d : Int) :
    ∀ (keys : List String) (a : Db × ScraperState × Nat × List (String × Int))
      (b : Db × ScraperState × List (String × Int)),
      a.2.2.2 = b.2.2 →
      (keys.foldl (probeOneKeyF env fault d) a).2.2.2 =
        (keys.foldl (probeOneKey env d) b).2.2 := by
  intro keys
  induction keys with
  | nil => intro a b h; exact h
  | cons x t ih =>
    intro a b h
    rw [List.foldl_cons, List.foldl_cons]
    apply ih
    simp [probeOneKeyF, probeOneKey, h]

theorem backfillDayF_log (env : Env) (fault : Nat → Bool) (S : List Int)
    (K : List String) (off : Int) (i : Nat)
    (a : Db × ScraperState × Nat × List (String × Int))
    (b : Db × ScraperState × List (String × Int)) (h : a.2.2.2 = b.2.2) :
    (backfillDayF env fault S K off a i).2.2.2 = (backfillDay env S K off b i).2.2 := by
  unfold backfillDayF backfillDay
  by_cases hc : S.contains (env.today - (off + (i : Int) + 1)) = true
  · simp only [hc, if_true]
    exact h
  · simp only [hc, Bool.false_eq_true, if_false]
    exact probeFoldF_log env fault (env.today - (off + (i : Int) + 1)) K a b h

theorem backfillWalkF_log (env : Env) (fault : Nat → Bool) (S : List Int)
    (K : List String) (off : Int) (cnt : Nat) (db : Db) (sc : ScraperState)
    (n : Nat) :
    (backfillWalkF env fault S K off cnt db sc n).2.2.2 =
      (backfillWalk env S K off cnt db sc).2.2 := by
  unfold backfillWalkF backfillWalk
  have gen : ∀ (l : List Nat) (a : Db × ScraperState × Nat × List (String × Int))
      (b : Db × ScraperState × List (String × Int)), a.2.2.2 = b.2.2 →
      (l.foldl (backfillDayF env fault S K off) a).2.2.2 =
        (l.foldl (backfillDay env S K off) b).2.2 := by
    intro l
    induction l with
    | nil => intro a b h; exact h
    | cons x t ih =>
      intro a b h
      rw [List.foldl_cons, List.foldl_cons]
      exact ih _ _ (backfillDayF_log env fault S K off x a b h)
  exact gen (List.range cnt) (db, sc, n, []) (db, sc, []) rfl

/-- **C9.** Store-error containment. Over the fault-instrumented model, where
any store write may throw: (a) an exception from the scrape body is caught by
`scrapeBroadcast`: only that scrape fails (`null` result) and the store keeps
exactly the writes committed before the throw; (b) when no write faults, the
fault-instrumented scrape agrees with the plain model — the instrumentation
changes nothing; (c) under EVERY fault schedule the historical backfill walk
attempts exactly the same probes as the fault-free model: one failing scrape
never aborts the rest of a backfill; (d) a store fault inside a single image
ingestion is caught by `processAndStoreImage`, yielding a `null` result for
just that ingestion and an unchanged store. -/
theorem store_error_containment (env : Env) (fault : Nat → Bool)
    (sc : ScraperState) (db : Db) (k : String) (d : Int) (force : Bool)
    (n : Nat) :
    (∀ st, db.getBroadcast d k = none →
      scrapeFetchF env fault sc db n k d = .error st →
      scrapeBroadcastF env fault sc db k d force n =
        { res := none, db := st.1, sc := st.2.1, n := st.2.2 }) ∧
    (∃ n', scrapeBroadcastF env (fun _ => false) sc db k d force n =
      { res := (scrapeBroadcast env sc db k d force).res,
        db := (scrapeBroadcast env sc db k d force).db,
        sc := (scrapeBroadcast env sc db k d force).sc, n := n' }) ∧
    (∀ (daysSet : List Int) (keys : List String) (off : Int) (cnt : Nat),
      (backfillWalkF env fault daysSet keys off cnt db sc n).2.2.2 =
        (backfillWalk env daysSet keys off cnt db sc).2.2) ∧
    (∀ (u rt : String) (buf : Int), env.img.download u = .ok buf →
      db.getImageByHash (env.img.hashOf buf) rt = none → fault n = true →
      processAndStoreImageF env.img fault db n u rt = (none, db, n + 1)) := by
  refine ⟨?_, scrapeBroadcastF_noFault env sc db k d force n, ?_, ?_⟩
  · intro st hgb hbody
    obtain ⟨db', sc', n'⟩ := st
    unfold scrapeBroadcastF
    simp [hgb, hbody]
  · intro daysSet keys off cnt
    exact backfillWalkF_log env fault daysSet keys off cnt db sc n
  · intro u rt buf hdl hnone hfault
    simp [processAndStoreImageF, hdl, hnone, hfault]

/-- Scraper state for the C9 witness: the program key is already known, so the
first faultable write of the scrape body is the broadcast upsert. -/
def scW9 : ScraperState := { known := ["4TV"], isRunning := false }

/-- Broadcast detail served to every fetch in the C9 witness. -/
def bdW9 : BData :=
  { id := 9, broadcastDay := 100, programKey := "4TV", title := none,
    state := some "P", start := some 10, endT := some 20, streams := [],
    images := [], items := [] }

/-- Environment for the C9 witness: fetches succeed, downloads yield byte
content `42`, and the clock sits before the broadcast's end. -/
def envW9 : Env :=
  { fetch := fun _ _ => .ok (some bdW9), live := .error (),
    broadcastsList := .error (), nowMs := 0, nowSec := 7, today := 200,
    img := imgW3 }

/-- Witness for C9: with the all-faults schedule the first store write of the
scrape throws and is contained (null result, untouched store), the no-fault
run agrees with the plain scraper, the walk's probe log matches the fault-free
walk, and a faulted image ingestion is contained. -/
theorem store_error_containment_witness :
    (Db.empty.getBroadcast 100 "4TV" = none ∧
     scrapeFetchF envW9 (fun _ => true) scW9 Db.empty 0 "4TV" 100 =
       .error (Db.empty, scW9, 1)) ∧
    scrapeBroadcastF envW9 (fun _ => true) scW9 Db.empty "4TV" 100 false 0 =
      { res := none, db := Db.empty, sc := scW9, n := 1 } ∧
    (∃ n', scrapeBroadcastF envW9 (fun _ => false) scW9 Db.empty "4TV" 100 false 0 =
      { res := (scrapeBroadcast envW9 scW9 Db.empty "4TV" 100 false).res,
        db := (scrapeBroadcast envW9 scW9 Db.empty "4TV" 100 false).db,
        sc := (scrapeBroadcast envW9 scW9 Db.empty "4TV" 100 false).sc,
        n := n' }) ∧
    (backfillWalkF envW9 (fun _ => true) [] ["4TV"] 0 1 Db.empty scW9 0).2.2.2 =
      (backfillWalk envW9 [] ["4TV"] 0 1 Db.empty scW9).2.2 ∧
    processAndStoreImageF envW9.img (fun _ => true) Db.empty 0 "u" "high" =
      (none, Db.empty, 1) :=
  ⟨⟨rfl, rfl⟩,
   (store_error_containment envW9 (fun _ => true) scW9 Db.empty "4TV" 100
      false 0).1 (Db.empty, scW9, 1) rfl rfl,
   (store_error_containment envW9 (fun _ => false) scW9 Db.empty "4TV" 100
      false 0).2.1,
   (store_error_containment envW9 (fun _ => true) scW9 Db.empty "4TV" 100
      false 0).2.2.1 [] ["4TV"] 0 1,
   (store_error_containment envW9 (fun _ => true) scW9 Db.empty "4TV" 100
      false 0).2.2.2 "u" "high" 42 rfl rfl rfl⟩

end FM4
